import Mathlib

/-! # Mobile Apdex calculator: a shallow embedding of `cmd/apdex/main.go` and `api.go`

Conventions.

* Go `int` is taken to be 64 bits wide (amd64/arm64): a value is an `Int`, and the
  result of an arithmetic operation is brought back into range by `wrapInt64`.
* Go `uint64` values are `Nat`s below `2 ^ 64`; subtraction wraps (`subUint64`) and
  a conversion `(uint64)(x)` of an `int` is `toUint64`.
* A finite `float32` is the rational number it denotes; a conversion or an operation
  of `float32` arithmetic is the exact one followed by `roundF32`, rounding to the
  nearest `float32`, ties to even.
* Package-level variables of `main.go` are the fields of `State`; a function that
  reads or writes them takes and returns a `State`.
-/

namespace Apdex

/-! ## Machine integers -/

/-- Two's complement wrap-around of a Go `int` (64 bit) result. -/
def wrapInt64 (x : Int) : Int := (x + 2 ^ 63) % 2 ^ 64 - 2 ^ 63

/-- The conversion `(uint64)(x)` of a Go `int`. -/
def toUint64 (x : Int) : Nat := (x % 2 ^ 64).toNat

/-- Subtraction `a - b` of two `uint64` values. -/
def subUint64 (a b : Nat) : Nat := (((a : Int) - (b : Int)) % 2 ^ 64).toNat

/-! ## Data model (`main.go`, lines 23-43) -/

/-- The `experience` enumeration: `SATISFIED = iota`, `TOLERATING`, `FRUSTRATED`. -/
inductive experience where
  | SATISFIED
  | TOLERATING
  | FRUSTRATED
  deriving DecidableEq

/-- The `apdexAction` struct. -/
structure apdexAction where
  StartTime : Nat
  ResponseTime : Nat
  UserExperience : experience
  deriving DecidableEq

/-- Modelled from the spec: the `dynatrace.UserAction` record produced by the beacon
parser, whose declaration is not among the sources; the spec's Interaction,
`{application: string, startTime: uint64 (ms), endTime: uint64 (ms)}`. -/
structure UserAction where
  Application : String
  StartTime : Nat
  EndTime : Nat
  deriving DecidableEq

/-- Modelled from the spec: one visit returned by `dynatrace.Parse`, "a sequence of
visits, each containing a sequence of Interaction records". -/
structure Visit where
  UserActions : List UserAction
  deriving DecidableEq

/-- Modelled from the spec: the window type `ring.Ring` of the imported package
`github.com/zfjagann/golang-ring`, whose source is not in the repository. The spec's
Window: an "ordered, fixed-capacity" container; `buff` lists the held samples from the
oldest to the newest. -/
structure Ring (α : Type) where
  capacity : Nat
  buff : List α
  deriving DecidableEq

/-- The zero value `ring.Ring{}`. -/
def Ring.zero {α : Type} : Ring α := { capacity := 0, buff := [] }

/-- Modelled from the spec: `SetCapacity`, "capacity is fixed at construction"; at most
the newest `size` samples are kept. -/
def Ring.SetCapacity {α : Type} (r : Ring α) (size : Nat) : Ring α :=
  { capacity := size, buff := r.buff.drop (r.buff.length - size) }

/-- Modelled from the spec: `Enqueue`, "inserts at the logical newest position; if the
window is at capacity, the logical oldest sample is discarded first", and "if `N = 0`
the window never holds samples". -/
def Ring.Enqueue {α : Type} (r : Ring α) (x : α) : Ring α :=
  if r.capacity = 0 then r
  else if r.capacity ≤ r.buff.length then { r with buff := r.buff.drop 1 ++ [x] }
  else { r with buff := r.buff ++ [x] }

/-- Modelled from the spec: `Values`, the snapshot, "returns the current contents". -/
def Ring.Values {α : Type} (r : Ring α) : List α := r.buff

/-- The package-level variables of `main.go` (lines 37-43). -/
structure State where
  actionsring : Ring apdexAction
  targetTime : Int
  applicationFilter : String
  visitCount : Int
  actionCount : Int
  deriving DecidableEq

/-! ## Ingestion (`main.go`, lines 57-86) -/

/-- The local variable `a` of `processUserAction` as it stands at line 85, just before
it is enqueued (lines 73-83). -/
def processUserAction.sample (targetTime : Int) (action : UserAction) : apdexAction :=
  let a : apdexAction :=
    { StartTime := action.StartTime
      ResponseTime := subUint64 action.EndTime action.StartTime
      UserExperience := experience.SATISFIED }
  if a.ResponseTime < toUint64 (wrapInt64 (targetTime * 1000)) then
    { a with UserExperience := experience.SATISFIED }
  else if a.ResponseTime < toUint64 (wrapInt64 (wrapInt64 (targetTime * 1000) * 4)) then
    { a with UserExperience := experience.TOLERATING }
  else
    { a with UserExperience := experience.FRUSTRATED }

/-- The function `processUserAction` (lines 68-86). -/
def processUserAction (s : State) (action : UserAction) : State :=
  if s.applicationFilter.length > 0 ∧ s.applicationFilter ≠ action.Application then
    s
  else
    { s with
      actionCount := wrapInt64 (s.actionCount + 1)
      actionsring := s.actionsring.Enqueue (processUserAction.sample s.targetTime action) }

/-- The body of the loop over the parsed visits in `processRequest` (lines 58-63), for
one visit `v`. -/
def processRequest.visit (s : State) (v : Visit) : State :=
  v.UserActions.foldl processUserAction { s with visitCount := wrapInt64 (s.visitCount + 1) }

/-- The POST branch of `processRequest` (lines 57-63) on the visits returned by
`dynatrace.Parse`. -/
def processRequest.post (s : State) (visits : List Visit) : State :=
  visits.foldl processRequest.visit s

/-! ## Aggregation (`main.go`, lines 88-109) -/

/-- The counters `satisfiedCount, toleratingCount, totalCount` of `calculateApdex`. -/
structure Tally where
  satisfiedCount : Nat
  toleratingCount : Nat
  totalCount : Nat
  deriving DecidableEq

/-- One iteration of the loop of `calculateApdex` (lines 91-97). -/
def calculateApdex.step (c : Tally) (action : apdexAction) : Tally :=
  let c := { c with totalCount := c.totalCount + 1 }
  if action.UserExperience = experience.SATISFIED then
    { c with satisfiedCount := c.satisfiedCount + 1 }
  else if action.UserExperience = experience.TOLERATING then
    { c with toleratingCount := c.toleratingCount + 1 }
  else c

/-- The loop of `calculateApdex` (lines 89-98) over a snapshot. -/
def calculateApdex.tally (values : List apdexAction) : Tally :=
  values.foldl calculateApdex.step { satisfiedCount := 0, toleratingCount := 0, totalCount := 0 }

/-- Rounding to the nearest integer, a tie going to the even one. -/
def roundHalfEven (q : ℚ) : ℤ :=
  if q - (⌊q⌋ : ℚ) < 1 / 2 then ⌊q⌋
  else if 1 / 2 < q - (⌊q⌋ : ℚ) then ⌊q⌋ + 1
  else if ⌊q⌋ % 2 = 0 then ⌊q⌋
  else ⌊q⌋ + 1

/-- The `float32` nearest to `x` (IEEE 754 binary32, round to nearest, ties to even):
with `e` the exponent of the binade of `x`, not below `-126`, the spacing of the
neighbouring `float32` values is `2 ^ (e - 23)` and `x` is rounded to a multiple of it.
Magnitudes of `2 ^ 128` and more, which round to infinity, are out of reach of
`calculateApdex`, whose operands are below `2 ^ 65`. -/
def roundF32 (x : ℚ) : ℚ :=
  (roundHalfEven (x / 2 ^ (max (Int.log 2 |x|) (-126) - 23)) : ℚ)
    * 2 ^ (max (Int.log 2 |x|) (-126) - 23)

/-- The conversion `float32(n)` of a Go `int`. -/
def float32 (n : Int) : ℚ := roundF32 (n : ℚ)

/-- Addition of two `float32` values. -/
def float32.add (a b : ℚ) : ℚ := roundF32 (a + b)

/-- Division of two `float32` values, the divisor not being zero. -/
def float32.div (a b : ℚ) : ℚ := roundF32 (a / b)

/-- The function `calculateApdex` (lines 88-105) on the snapshot `actionsring.Values()`;
the result is the rational number that the returned `float32` denotes. -/
def calculateApdex (r : Ring apdexAction) : ℚ :=
  let c := calculateApdex.tally r.Values
  if c.totalCount = 0 then 0
  else
    float32.div
      (float32.add (float32 (c.satisfiedCount : Int))
        (float32.div (float32 (c.toleratingCount : Int)) 2))
      (float32 (c.totalCount : Int))

/-- The function `getBufferSize` (lines 107-109). -/
def getBufferSize (r : Ring apdexAction) : Nat := r.Values.length

/-! ## Status page (`main.go`, lines 46-55) -/

/-- One line written by the GET branch of `processRequest`. -/
inductive StatusLine where
  | visitCount (n : Int)
  | actionCount (n : Int)
  | bufferSize (n : Nat)
  | apdex (score : ℚ)
  deriving DecidableEq

/-- The GET branch of `processRequest` (lines 46-55): the lines written to the
response, in order. -/
def processRequest.get (s : State) : List StatusLine :=
  let bufferSize := getBufferSize s.actionsring
  [StatusLine.visitCount s.visitCount, StatusLine.actionCount s.actionCount,
      StatusLine.bufferSize bufferSize]
    ++ (if bufferSize > 0 then [StatusLine.apdex (calculateApdex s.actionsring)] else [])

end Apdex

namespace Dynatrace

/-! ## `api.go`: data -/

/-- The `DataPoint` struct (lines 40-49); `Value` is a `float32`. -/
structure DataPoint where
  CustomDeviceID : String
  IPAddress : String
  DeviceDisplayName : String
  MetricDisplayName : String
  DeviceType : String
  MetricName : String
  Timestamp : Int
  Value : ℚ
  deriving DecidableEq

/-! ## JSON as `encoding/json` presents it -/

/-- A JSON value. A number is kept as its literal text. -/
inductive JSON where
  | null
  | bool (b : Bool)
  | number (literal : String)
  | string (s : String)
  | array (elems : List JSON)
  | object (fields : List (String × JSON))

/-- A token returned by `(*json.Decoder).Token`: a delimiter `[ ] { }`, or a basic value.
Commas and colons are not tokens, and an object key is a `string` token. -/
inductive Token where
  | delim (c : Char)
  | bool (b : Bool)
  | number (literal : String)
  | string (s : String)
  | null
  deriving DecidableEq

mutual
/-- The token stream that `json.Decoder` produces for a JSON value. -/
def JSON.tokens : JSON → List Token
  | .null => [Token.null]
  | .bool b => [Token.bool b]
  | .number n => [Token.number n]
  | .string s => [Token.string s]
  | .array elems => Token.delim '[' :: (JSON.tokensElems elems ++ [Token.delim ']'])
  | .object fields => Token.delim '\x7b' :: (JSON.tokensFields fields ++ [Token.delim '\x7d'])
/-- The tokens of the elements of an array, in order. -/
def JSON.tokensElems : List JSON → List Token
  | [] => []
  | x :: xs => x.tokens ++ JSON.tokensElems xs
/-- The tokens of the members of an object: each key, then the tokens of its value. -/
def JSON.tokensFields : List (String × JSON) → List Token
  | [] => []
  | (k, v) :: fs => Token.string k :: (v.tokens ++ JSON.tokensFields fs)
end

/-! ## `GetCustomMetrics` and `CustomMetricExists` (lines 94-154) -/

/-- What `ServerRequest` hands to `GetCustomMetrics` on success: the status code, the
tokens that successive calls of `dec.Token()` return for the body, and the error that
ends the stream (`none` stands for `io.EOF`). -/
structure Response where
  StatusCode : Int
  tokens : List Token
  decodeError : Option String

/-- The `switch state` of `GetCustomMetrics` (lines 134-150) for one token. -/
def GetCustomMetrics.step (state : Nat) (metrics : List String) (t : Token) :
    Nat × List String :=
  match state with
  | 0 =>
    match t with
    | Token.delim c => if String.singleton c = "\x7b" then (1, metrics) else (0, metrics)
    | _ => (0, metrics)
  | 1 =>
    match t with
    | Token.string v => if v = "timeseriesId" then (2, metrics) else (0, metrics)
    | _ => (0, metrics)
  | 2 =>
    match t with
    | Token.string v => (0, metrics ++ [v])
    | _ => (0, metrics)
  | _ => (state, metrics)

/-- The `for` loop of `GetCustomMetrics` (lines 126-151) over the token stream. -/
def GetCustomMetrics.loop (state : Nat) (metrics : List String) :
    List Token → Option String → Except String (List String)
  | [], none => Except.ok metrics
  | [], some err => Except.error err
  | t :: rest, err =>
    GetCustomMetrics.loop (GetCustomMetrics.step state metrics t).1
      (GetCustomMetrics.step state metrics t).2 rest err

/-- The function `GetCustomMetrics` (lines 110-154), given the outcome of
`api.ServerRequest("GET", "/api/v1/timeseries?filter=CUSTOM", nil)`. -/
def GetCustomMetrics (resp : Except String Response) : Except String (List String) :=
  match resp with
  | Except.error err => Except.error err
  | Except.ok resp =>
    if resp.StatusCode ≠ 200 then
      Except.error
        ("server returned " ++ toString resp.StatusCode ++ " status code for GetCustomMetrics")
    else
      GetCustomMetrics.loop 0 [] resp.tokens resp.decodeError

/-- The loop of `CustomMetricExists` (lines 101-107). -/
def CustomMetricExists.loop (m : String) : List String → Bool
  | [] => false
  | v :: rest => if v = m then true else CustomMetricExists.loop m rest

/-- The function `CustomMetricExists` (lines 94-108), given the outcome of the request
made by `GetCustomMetrics`. -/
def CustomMetricExists (resp : Except String Response) (m : String) : Except String Bool :=
  match GetCustomMetrics resp with
  | Except.error err => Except.error err
  | Except.ok metrics => Except.ok (CustomMetricExists.loop ("custom:" ++ m) metrics)

mutual
/-- A JSON value in which no object, at any depth, has `timeseriesId` as its first
key: the scan of `GetCustomMetrics` passes over such a value without recording
anything. -/
def JSON.quiet : JSON → Bool
  | .null => true
  | .bool _ => true
  | .number _ => true
  | .string _ => true
  | .array elems => JSON.quietElems elems
  | .object [] => true
  | .object ((k, v) :: fs) => k ≠ "timeseriesId" && v.quiet && JSON.quietFields fs
/-- All elements are `quiet`. -/
def JSON.quietElems : List JSON → Bool
  | [] => true
  | x :: xs => x.quiet && JSON.quietElems xs
/-- All member values are `quiet`. -/
def JSON.quietFields : List (String × JSON) → Bool
  | [] => true
  | (_, v) :: fs => v.quiet && JSON.quietFields fs
end

/-- A metric record whose first field is `timeseriesId`, with the string value `id`,
followed by the fields `others`. -/
def metricRecord (id : String) (others : List (String × JSON)) : JSON :=
  JSON.object (("timeseriesId", JSON.string id) :: others)

/-! ## `RegisterCustomMetric` (lines 61-92) and `escapeJSONString` (lines 205-207)

Go strings that are valid UTF-8 are `String`s; a `bytes.Buffer` is the list of the
characters written to it. -/

/-- The table `hex` of `encoding/json`. -/
def hex (n : Nat) : Char := "0123456789abcdef".data.getD n '0'

/-- What `json.HTMLEscape` writes for one character of valid UTF-8 input: each of `<`,
`>`, `&` becomes the six characters backslash, `u`, `0`, `0` and its two hexadecimal
digits (`003c`, `003e`, `0026`); U+2028 and U+2029 become backslash, `u` and `2028`,
`2029`; every other character is copied. In valid UTF-8 the bytes `3C`, `3E`, `26` and
the byte sequences `E2 80 A8`, `E2 80 A9`, which the library looks for, occur only as
the encodings of these five characters. -/
def HTMLEscape.char (c : Char) : List Char :=
  if c = '<' ∨ c = '>' ∨ c = '&' then
    ['\\', 'u', '0', '0', hex (c.toNat / 16), hex (c.toNat % 16)]
  else if c = Char.ofNat 0x2028 ∨ c = Char.ofNat 0x2029 then
    ['\\', 'u', '2', '0', '2', hex (c.toNat % 16)]
  else [c]

/-- The library function `json.HTMLEscape(dst, src)`. -/
def HTMLEscape (dst : List Char) (src : List Char) : List Char :=
  dst ++ src.flatMap HTMLEscape.char

/-- The function `escapeJSONString` (lines 205-207). -/
def escapeJSONString (buf : List Char) (s : String) : List Char :=
  HTMLEscape buf s.data

/-- A `bufio.Writer` on top of a `bytes.Buffer`: `buf` is the content of the buffer,
`pending` what the writer has not flushed yet (the strings written here are far
shorter than the writer's 4096 bytes, so nothing is flushed implicitly). -/
structure BufWriter where
  buf : List Char
  pending : List Char

/-- The method `writer.WriteString`. -/
def BufWriter.WriteString (w : BufWriter) (s : String) : BufWriter :=
  { w with pending := w.pending ++ s.data }

/-- The method `writer.Flush`. -/
def BufWriter.Flush (w : BufWriter) : BufWriter :=
  { buf := w.buf ++ w.pending, pending := [] }

/-- The request body that `RegisterCustomMetric` builds (lines 63-75). -/
def RegisterCustomMetric.body (displayName unit metricType : String) : List Char :=
  let w : BufWriter := { buf := [], pending := [] }
  let w := w.WriteString "\x7b\"displayName\":\""
  let w := w.Flush
  let w := { w with buf := escapeJSONString w.buf displayName }
  let w := w.WriteString "\",\"unit\":\""
  let w := w.Flush
  let w := { w with buf := escapeJSONString w.buf unit }
  let w := w.WriteString "\",\"types\":[\""
  let w := w.Flush
  let w := { w with buf := escapeJSONString w.buf metricType }
  let w := w.WriteString "\"]\x7d"
  let w := w.Flush
  w.buf

/-- An HTTP request passed to `ServerRequest`. -/
structure Request where
  method : String
  uri : String
  body : List Char

/-- The function `RegisterCustomMetric` (lines 61-92). `send` is `api.ServerRequest`
followed by `ioutil.ReadAll` of the response body: the outer error is that of the
request, the inner one that of reading the body. -/
def RegisterCustomMetric (send : Request → Except String (Except String String))
    (name displayName unit metricType : String) : Except String Unit :=
  match send
    { method := "PUT"
      uri := "/api/v1/timeseries/custom:" ++ name ++ "/"
      body := RegisterCustomMetric.body displayName unit metricType } with
  | Except.error err => Except.error err
  | Except.ok (Except.error err) => Except.error err
  | Except.ok (Except.ok respBody) =>
    if String.isPrefixOf "\x7b\"error\"" respBody then
      Except.error
        ("Received error response while trying to create custom metric: " ++ respBody)
    else Except.ok ()

/-! ## A JSON decoder

The decoder reads the fragment of JSON made of strings, arrays, objects and the
literals `true`, `false`, `null`, with optional white space; it is what the body of
`RegisterCustomMetric` is decoded with. -/

/-- The value of a hexadecimal digit. -/
def hexVal (c : Char) : Option Nat :=
  if '0' ≤ c ∧ c ≤ '9' then some (c.toNat - 48)
  else if 'a' ≤ c ∧ c ≤ 'f' then some (c.toNat - 87)
  else if 'A' ≤ c ∧ c ≤ 'F' then some (c.toNat - 55)
  else none

/-- The character denoted by a backslash-`u` escape with the hexadecimal digits
`a b c d`; surrogates are rejected. -/
def decodeEscape4 (a b c d : Char) : Option Char :=
  match hexVal a, hexVal b, hexVal c, hexVal d with
  | some x, some y, some z, some w =>
    let n := ((x * 16 + y) * 16 + z) * 16 + w
    if 0xD800 ≤ n ∧ n ≤ 0xDFFF then none else some (Char.ofNat n)
  | _, _, _, _ => none

/-- The character denoted by a two-character escape: the character after the
backslash is `e`. -/
def unescape (e : Char) : Option Char :=
  if e = '"' then some '"'
  else if e = '\\' then some '\\'
  else if e = '/' then some '/'
  else if e = 'b' then some (Char.ofNat 8)
  else if e = 'f' then some (Char.ofNat 12)
  else if e = 'n' then some '\n'
  else if e = 'r' then some '\r'
  else if e = 't' then some '\t'
  else none

/-- Reads a string literal after its opening quote: the decoded characters and the
input that follows the closing quote. Control characters below U+0020 are rejected. -/
def parseString : List Char → Option (List Char × List Char)
  | [] => none
  | c :: rest =>
    if c = '"' then some ([], rest)
    else if c = '\\' then
      match rest with
      | [] => none
      | e :: rest1 =>
        if e = 'u' then
          match rest1 with
          | h1 :: h2 :: h3 :: h4 :: rest2 =>
            match decodeEscape4 h1 h2 h3 h4 with
            | some ch => (parseString rest2).map (fun p => (ch :: p.1, p.2))
            | none => none
          | _ => none
        else
          match unescape e with
          | some ch => (parseString rest1).map (fun p => (ch :: p.1, p.2))
          | none => none
    else if c.toNat < 0x20 then none
    else (parseString rest).map (fun p => (c :: p.1, p.2))

/-- Skips JSON white space. -/
def skipWs : List Char → List Char
  | [] => []
  | c :: rest => if c = ' ' ∨ c = '\n' ∨ c = '\r' ∨ c = '\t' then skipWs rest else c :: rest

mutual
/-- Reads one JSON value; `fuel` bounds the nesting depth and the number of siblings. -/
def parseValue : Nat → List Char → Option (JSON × List Char)
  | 0, _ => none
  | fuel + 1, cs =>
    match skipWs cs with
    | [] => none
    | c :: rest =>
      if c = '"' then
        (parseString rest).map (fun p => (JSON.string (String.mk p.1), p.2))
      else if c = '[' then
        match skipWs rest with
        | [] => none
        | c1 :: rest1 =>
          if c1 = ']' then some (JSON.array [], rest1)
          else (parseElems fuel (c1 :: rest1)).map (fun p => (JSON.array p.1, p.2))
      else if c = '\x7b' then
        match skipWs rest with
        | [] => none
        | c1 :: rest1 =>
          if c1 = '\x7d' then some (JSON.object [], rest1)
          else (parseMembers fuel (c1 :: rest1)).map (fun p => (JSON.object p.1, p.2))
      else if List.isPrefixOf "true".data (c :: rest) then
        some (JSON.bool true, (c :: rest).drop 4)
      else if List.isPrefixOf "false".data (c :: rest) then
        some (JSON.bool false, (c :: rest).drop 5)
      else if List.isPrefixOf "null".data (c :: rest) then
        some (JSON.null, (c :: rest).drop 4)
      else none
/-- Reads the elements of a non-empty array up to and including the closing bracket. -/
def parseElems : Nat → List Char → Option (List JSON × List Char)
  | 0, _ => none
  | fuel + 1, cs =>
    match parseValue fuel cs with
    | none => none
    | some (v, rest) =>
      match skipWs rest with
      | [] => none
      | c :: rest1 =>
        if c = ',' then (parseElems fuel rest1).map (fun p => (v :: p.1, p.2))
        else if c = ']' then some ([v], rest1)
        else none
/-- Reads the members of a non-empty object up to and including the closing brace. -/
def parseMembers : Nat → List Char → Option (List (String × JSON) × List Char)
  | 0, _ => none
  | fuel + 1, cs =>
    match skipWs cs with
    | [] => none
    | c :: rest =>
      if c = '"' then
        match parseString rest with
        | none => none
        | some (k, rest1) =>
          match skipWs rest1 with
          | [] => none
          | c1 :: rest2 =>
            if c1 = ':' then
              match parseValue fuel rest2 with
              | none => none
              | some (v, rest3) =>
                match skipWs rest3 with
                | [] => none
                | c2 :: rest4 =>
                  if c2 = ',' then
                    (parseMembers fuel rest4).map (fun p => ((String.mk k, v) :: p.1, p.2))
                  else if c2 = '\x7d' then some ([(String.mk k, v)], rest4)
                  else none
            else none
      else none
end

/-- Decodes a complete JSON text. -/
def decode (text : List Char) : Option JSON :=
  match parseValue (text.length + 1) text with
  | some (v, rest) => if skipWs rest = [] then some v else none
  | none => none

end Dynatrace

namespace Apdex

/-! ## Export loop and startup (`main.go`, lines 15-21 and 111-205) -/

/-- The constant `metricName`. -/
def metricName : String := "apdex"
/-- The constant `metricDisplayName`. -/
def metricDisplayName : String := "Mobile Apdex"
/-- The constant `metricType`. -/
def metricType : String := "MobileDevice"
/-- The constant `deviceID`. -/
def deviceID : String := "MobileApdexCalculator"
/-- The constant `deviceType`. -/
def deviceType : String := metricType
/-- The constant `deviceDisplayName`. -/
def deviceDisplayName : String := "Mobile Apdex Calculator"
/-- The constant `ipAddress`. -/
def ipAddress : String := "10.0.0.10"

/-- What one pass of the loop of `postData` meets after its sleep: the reading
`time.Now().Unix()` of the clock, the window as it is at that moment, and the outcome
of the call `api.ReportDataPoint(dp)`. -/
structure Tick where
  now : Int
  actionsring : Ring apdexAction
  report : Except String String

/-- What `postData` does that can be seen from outside: calls of
`api.ReportDataPoint` and the log lines. -/
inductive PostEvent where
  | ReportDataPoint (dp : Dynatrace.DataPoint)
  | logError (err : String)
  | logBody (respBody : String)
  | logSuccess (apdex : ℚ)
  deriving DecidableEq

/-- One pass of the loop of `postData` (lines 121-132): the data point as it is left
for the next pass, and what the pass did. -/
def postData.iteration (dp : Dynatrace.DataPoint) (tk : Tick) :
    Dynatrace.DataPoint × List PostEvent :=
  let apdex := calculateApdex tk.actionsring
  let dp := { dp with Timestamp := wrapInt64 (tk.now * 1000) }
  let dp := { dp with Value := apdex }
  match tk.report with
  | Except.error err => (dp, [PostEvent.ReportDataPoint dp, PostEvent.logError err])
  | Except.ok respBody =>
    (dp, [PostEvent.ReportDataPoint dp, PostEvent.logBody respBody,
      PostEvent.logSuccess apdex])

/-- The loop of `postData` (lines 120-133), run for the given ticks. -/
def postData.loop (dp : Dynatrace.DataPoint) : List Tick → List PostEvent
  | [] => []
  | tk :: rest => (postData.iteration dp tk).2 ++ postData.loop (postData.iteration dp tk).1 rest

/-- The function `postData` (lines 111-134), run for the given ticks. -/
def postData (ticks : List Tick) : List PostEvent :=
  postData.loop
    { CustomDeviceID := deviceID
      IPAddress := ipAddress
      DeviceDisplayName := deviceDisplayName
      MetricDisplayName := metricDisplayName
      DeviceType := deviceType
      MetricName := metricName
      Timestamp := 0
      Value := 0 }
    ticks

/-- The command-line flags of `main` (lines 137-151). -/
structure Flags where
  port : Int
  targetTime : Int
  ringBufferSize : Int
  applicationFilter : String
  serverURL : String
  apiToken : String
  deriving DecidableEq

/-- What `main` does, in order; `log.Println` lines are left out. `missingParameter` and
`Fatal` end the process (`os.Exit(1)`). -/
inductive MainEvent where
  | missingParameter (name : String)
  | SetCapacity (size : Int)
  | NewAPI (s t : String)
  | CustomMetricExists (m : String)
  | RegisterCustomMetric (name displayName unit metricType : String)
  | Fatal (msg : String)
  | goPostData
  | HandleFunc (pattern : String)
  | ListenAndServe (port : Int)
  deriving DecidableEq

/-- The end of `main` (lines 192-198), reached when the metric is known to exist;
`listen` is the error returned by `http.ListenAndServe`, if it returns. -/
def main.serve (flags : Flags) (listen : Option String) : List MainEvent :=
  [MainEvent.goPostData, MainEvent.HandleFunc "/", MainEvent.ListenAndServe flags.port]
    ++ (match listen with
        | some err => [MainEvent.Fatal ("Could not bind to listener port" ++ err)]
        | none => [])

/-- The function `main` (lines 136-199). `catalog` is the outcome of the request made
by `api.CustomMetricExists`, `send` the backend as `api.RegisterCustomMetric` reaches
it. `log.Fatalln` separates its operands by a space, `log.Fatal` does not when one of
them is a string. What `SetCapacity` does with a negative `ringBufferSize` belongs to
the ring package and is not modelled. -/
def main (flags : Flags) (catalog : Except String Dynatrace.Response)
    (send : Dynatrace.Request → Except String (Except String String))
    (listen : Option String) : List MainEvent :=
  if flags.serverURL.length = 0 then [MainEvent.missingParameter "serverurl"]
  else if flags.apiToken.length = 0 then [MainEvent.missingParameter "apitoken"]
  else
    [MainEvent.SetCapacity flags.ringBufferSize,
      MainEvent.NewAPI flags.serverURL flags.apiToken,
      MainEvent.CustomMetricExists metricName]
    ++ (match Dynatrace.CustomMetricExists catalog metricName with
        | Except.error err => [MainEvent.Fatal err]
        | Except.ok ok =>
          if !ok then
            MainEvent.RegisterCustomMetric metricName metricDisplayName "Ratio" metricType ::
              (match Dynatrace.RegisterCustomMetric send metricName metricDisplayName "Ratio"
                  metricType with
                | Except.error err => [MainEvent.Fatal ("Could not create custom metric " ++ err)]
                | Except.ok _ => main.serve flags listen)
          else main.serve flags listen)

end Apdex

/-! ## Machine-integer lemmas -/

namespace Apdex

theorem toUint64_wrapInt64 (x : Int) : toUint64 (wrapInt64 x) = (x % 2 ^ 64).toNat := by
  unfold toUint64 wrapInt64
  congr 1
  omega

theorem toUint64_of_range (x : Int) (h0 : 0 ≤ x) (h1 : x < 2 ^ 64) :
    (toUint64 (wrapInt64 x) : Int) = x := by
  rw [toUint64_wrapInt64]
  omega

theorem toUint64_wrapInt64_mul4 (x : Int) :
    toUint64 (wrapInt64 (wrapInt64 x * 4)) = ((x * 4) % 2 ^ 64).toNat := by
  unfold toUint64 wrapInt64
  congr 1
  omega

theorem subUint64_lt (a b : Nat) : subUint64 a b < 2 ^ 64 := by
  unfold subUint64
  omega

theorem subUint64_of_le (a b : Nat) (h : b ≤ a) (ha : a < 2 ^ 64) : subUint64 a b = a - b := by
  unfold subUint64
  omega

theorem sample_ResponseTime (T : Int) (action : UserAction) :
    (processUserAction.sample T action).ResponseTime
      = subUint64 action.EndTime action.StartTime := by
  unfold processUserAction.sample
  simp only
  split_ifs <;> rfl

theorem sample_StartTime (T : Int) (action : UserAction) :
    (processUserAction.sample T action).StartTime = action.StartTime := by
  unfold processUserAction.sample
  simp only
  split_ifs <;> rfl

/-! ## C1: tier assignment -/

theorem sample_experience_cases (T : Int) (action : UserAction) :
    let a := processUserAction.sample T action
    (a.UserExperience = experience.SATISFIED ↔
        a.ResponseTime < toUint64 (wrapInt64 (T * 1000))) ∧
    (a.UserExperience = experience.TOLERATING ↔
        ¬ a.ResponseTime < toUint64 (wrapInt64 (T * 1000)) ∧
        a.ResponseTime < toUint64 (wrapInt64 (wrapInt64 (T * 1000) * 4))) ∧
    (a.UserExperience = experience.FRUSTRATED ↔
        ¬ a.ResponseTime < toUint64 (wrapInt64 (T * 1000)) ∧
        ¬ a.ResponseTime < toUint64 (wrapInt64 (wrapInt64 (T * 1000) * 4))) := by
  intro a
  have hr : a.ResponseTime = subUint64 action.EndTime action.StartTime :=
    sample_ResponseTime T action
  rw [hr]
  show ((processUserAction.sample T action).UserExperience = _ ↔ _) ∧
    ((processUserAction.sample T action).UserExperience = _ ↔ _) ∧
    ((processUserAction.sample T action).UserExperience = _ ↔ _)
  unfold processUserAction.sample
  simp only
  split_ifs <;> simp [*]

/-- C1 (amended): when the configured threshold satisfies `0 ≤ targetTime` and
`targetTime * 4000 < 2 ^ 64`, with `t = targetTime * 1000` and `r` the response time of
the sample built by `processUserAction`: the tier is SATISFIED iff `r < t`, FRUSTRATED
iff `r ≥ 4 t`, TOLERATING iff `t ≤ r < 4 t`; `r = 4 t` gives FRUSTRATED, and `r = t`
gives TOLERATING when `t > 0`. -/
theorem processUserAction_tier (targetTime : Int) (action : UserAction)
    (h0 : 0 ≤ targetTime) (h1 : targetTime * 4000 < 2 ^ 64) :
    let a := processUserAction.sample targetTime action
    let r : Int := a.ResponseTime
    let t : Int := targetTime * 1000
    (a.UserExperience = experience.SATISFIED ↔ r < t) ∧
    (a.UserExperience = experience.FRUSTRATED ↔ 4 * t ≤ r) ∧
    (a.UserExperience = experience.TOLERATING ↔ t ≤ r ∧ r < 4 * t) ∧
    (r = 4 * t → a.UserExperience = experience.FRUSTRATED) ∧
    (0 < t → r = t → a.UserExperience = experience.TOLERATING) := by
  have e4 : (toUint64 (wrapInt64 (wrapInt64 (targetTime * 1000) * 4)) : Int)
      = 4 * (targetTime * 1000) := by
    rw [toUint64_wrapInt64_mul4]
    have e : targetTime * 1000 * 4 = targetTime * 4000 := by ring
    rw [e, Int.emod_eq_of_lt (by omega) h1]
    omega
  have e1 : (toUint64 (wrapInt64 (targetTime * 1000)) : Int) = targetTime * 1000 :=
    toUint64_of_range (targetTime * 1000) (by omega) (by omega)
  have hS := sample_experience_cases targetTime action
  intro a r t
  show (a.UserExperience = _ ↔ (a.ResponseTime : Int) < targetTime * 1000) ∧
    (a.UserExperience = _ ↔ 4 * (targetTime * 1000) ≤ (a.ResponseTime : Int)) ∧
    (a.UserExperience = _ ↔ targetTime * 1000 ≤ (a.ResponseTime : Int) ∧
      (a.ResponseTime : Int) < 4 * (targetTime * 1000)) ∧
    ((a.ResponseTime : Int) = 4 * (targetTime * 1000) → a.UserExperience = _) ∧
    (0 < targetTime * 1000 → (a.ResponseTime : Int) = targetTime * 1000 →
      a.UserExperience = _)
  clear r t
  change (a.UserExperience = _ ↔ _) ∧ (a.UserExperience = _ ↔ _) ∧
    (a.UserExperience = _ ↔ _) at hS
  revert hS
  generalize a.ResponseTime = r
  generalize a.UserExperience = e
  generalize toUint64 (wrapInt64 (targetTime * 1000)) = u1 at e1
  generalize toUint64 (wrapInt64 (wrapInt64 (targetTime * 1000) * 4)) = u4 at e4
  rintro ⟨hS, hT, hF⟩
  rw [hS, hT, hF]
  omega

/-- Witness of `processUserAction_tier`: a threshold of 2 s and an action that took
2500 ms, which is TOLERATING. -/
theorem processUserAction_tier_witness :
    (0 : Int) ≤ 2 ∧ (2 : Int) * 4000 < 2 ^ 64 ∧
    (processUserAction.sample 2 ⟨"app", 100, 2600⟩).UserExperience = experience.TOLERATING :=
  ⟨by decide, by decide,
    (processUserAction_tier 2 ⟨"app", 100, 2600⟩ (by decide) (by decide)).2.2.1.mpr
      ⟨by decide, by decide⟩⟩

/-- C1 (as stated) fails: with `targetTime = 0` the response time `r = 0` equals `t`
and is FRUSTRATED, not TOLERATING; with `targetTime = -1` the response time `0` is
SATISFIED although `0 < t = -1000` is false; with `targetTime = 5 * 10 ^ 15`
(`4 t ≥ 2 ^ 64`) the response time `r = t` is FRUSTRATED. -/
theorem processUserAction_tier_counterexample :
    ((processUserAction.sample 0 ⟨"app", 0, 0⟩).ResponseTime = 0 * 1000 ∧
      (processUserAction.sample 0 ⟨"app", 0, 0⟩).UserExperience = experience.FRUSTRATED) ∧
    ((processUserAction.sample (-1) ⟨"app", 0, 0⟩).UserExperience = experience.SATISFIED ∧
      ¬ (((processUserAction.sample (-1) ⟨"app", 0, 0⟩).ResponseTime : Int) < (-1) * 1000)) ∧
    (((processUserAction.sample 5000000000000000 ⟨"app", 0, 5000000000000000000⟩).ResponseTime
        : Int) = 5000000000000000 * 1000 ∧
      (processUserAction.sample 5000000000000000 ⟨"app", 0, 5000000000000000000⟩).UserExperience
        = experience.FRUSTRATED) := by
  decide

end Apdex

/-! ## `float32` rounding -/

namespace Apdex

theorem roundHalfEven_intCast (n : ℤ) : roundHalfEven (n : ℚ) = n := by
  unfold roundHalfEven
  rw [Int.floor_intCast, sub_self, if_pos (by norm_num)]

theorem roundHalfEven_nonneg (q : ℚ) (h : 0 ≤ q) : 0 ≤ roundHalfEven q := by
  have hf : 0 ≤ ⌊q⌋ := Int.floor_nonneg.mpr h
  unfold roundHalfEven
  split_ifs <;> omega

theorem roundHalfEven_le (q : ℚ) (n : ℤ) (h : q < n) : roundHalfEven q ≤ n := by
  have hf : ⌊q⌋ < n := Int.floor_lt.mpr h
  unfold roundHalfEven
  split_ifs <;> omega

theorem log_eq_of_bounds (x : ℚ) (e : ℤ) (h1 : (2 : ℚ) ^ e ≤ x) (h2 : x < 2 ^ (e + 1)) :
    Int.log 2 |x| = e := by
  have hpos : 0 < x := lt_of_lt_of_le (zpow_pos (by norm_num) e) h1
  rw [abs_of_pos hpos]
  have hle : e ≤ Int.log 2 x :=
    (Int.zpow_le_iff_le_log (by norm_num) hpos).mp (by exact_mod_cast h1)
  have hlt : Int.log 2 x < e + 1 :=
    (Int.lt_zpow_iff_log_lt (by norm_num) hpos).mp (by exact_mod_cast h2)
  omega

theorem roundF32_zero : roundF32 0 = 0 := by
  unfold roundF32
  rw [zero_div]
  have : roundHalfEven 0 = 0 := by simpa using roundHalfEven_intCast 0
  rw [this]
  simp

/-- A multiple of the spacing of its own binade is a `float32` and rounds to itself. -/
theorem roundF32_exact (x : ℚ) (e n : ℤ) (h1 : (2 : ℚ) ^ e ≤ x) (h2 : x < 2 ^ (e + 1))
    (he : -126 ≤ e) (hn : x = (n : ℚ) * 2 ^ (e - 23)) : roundF32 x = x := by
  unfold roundF32
  rw [log_eq_of_bounds x e h1 h2, max_eq_left he]
  have hne : (2 : ℚ) ^ (e - 23) ≠ 0 := zpow_ne_zero _ (by norm_num)
  have hq : x / 2 ^ (e - 23) = (n : ℚ) := by
    rw [hn, mul_div_assoc, div_self hne, mul_one]
  rw [hq, roundHalfEven_intCast, ← hn]

/-- Half of a natural number below `2 ^ 24` is a `float32`. -/
theorem roundF32_half (a : ℕ) (ha : a < 2 ^ 24) : roundF32 ((a : ℚ) / 2) = (a : ℚ) / 2 := by
  rcases Nat.eq_zero_or_pos a with h0 | hpos
  · rw [h0]; simpa using roundF32_zero
  have hx : (0 : ℚ) < (a : ℚ) / 2 := by positivity
  have h1 := Int.zpow_log_le_self (b := 2) (r := (a : ℚ) / 2) (by norm_num) hx
  have h2 := Int.lt_zpow_succ_log_self (b := 2) (by norm_num) ((a : ℚ) / 2)
  have hlo : (-1 : ℤ) ≤ Int.log 2 ((a : ℚ) / 2) := by
    apply (Int.zpow_le_iff_le_log (by norm_num) hx).mp
    have : (1 : ℚ) ≤ (a : ℚ) := by exact_mod_cast hpos
    norm_num
    linarith
  have hhi : Int.log 2 ((a : ℚ) / 2) < 23 := by
    apply (Int.lt_zpow_iff_log_lt (by norm_num) hx).mp
    have : (a : ℚ) < 2 ^ 24 := by exact_mod_cast ha
    norm_num
    linarith
  obtain ⟨k, hk⟩ : ∃ k : ℕ, (k : ℤ) = 22 - Int.log 2 ((a : ℚ) / 2) :=
    ⟨(22 - Int.log 2 ((a : ℚ) / 2)).toNat, Int.toNat_of_nonneg (by omega)⟩
  refine roundF32_exact _ (Int.log 2 ((a : ℚ) / 2)) ((a : ℤ) * 2 ^ k)
    (by exact_mod_cast h1) (by exact_mod_cast h2) (by omega) ?_
  have e1 : Int.log 2 ((a : ℚ) / 2) - 23 = -(k : ℤ) - 1 := by omega
  rw [e1]
  push_cast
  have h2k : (2 : ℚ) ^ k ≠ 0 := pow_ne_zero _ (by norm_num)
  rw [zpow_sub₀ (by norm_num : (2 : ℚ) ≠ 0), zpow_neg, zpow_natCast, zpow_one]
  field_simp
  ring

theorem roundF32_natCast (n : ℕ) (hn : n < 2 ^ 23) : roundF32 (n : ℚ) = (n : ℚ) := by
  have h := roundF32_half (2 * n) (by omega)
  have e : ((2 * n : ℕ) : ℚ) / 2 = (n : ℚ) := by push_cast; ring
  rwa [e] at h

theorem top_of_binade (E : ℤ) : ((2 ^ 24 : ℤ) : ℚ) * 2 ^ (E - 23) = 2 ^ (E + 1) := by
  have h : ((2 ^ 24 : ℤ) : ℚ) = (2 : ℚ) ^ (24 : ℤ) := by norm_num
  rw [h, ← zpow_add₀ (by norm_num : (2 : ℚ) ≠ 0)]
  congr 1
  omega

/-- Rounding keeps a number of `[0, 1]` in `[0, 1]`. -/
theorem roundF32_unit (x : ℚ) (h0 : 0 ≤ x) (h1 : x ≤ 1) :
    0 ≤ roundF32 x ∧ roundF32 x ≤ 1 := by
  constructor
  · unfold roundF32
    apply mul_nonneg
    · exact_mod_cast roundHalfEven_nonneg _ (div_nonneg h0 (zpow_nonneg (by norm_num) _))
    · exact zpow_nonneg (by norm_num) _
  · rcases eq_or_lt_of_le h1 with h | h
    · rw [h]
      have := roundF32_natCast 1 (by norm_num)
      simpa using this.le
    rcases eq_or_lt_of_le h0 with h' | h'
    · rw [← h', roundF32_zero]; norm_num
    have hlog : Int.log 2 x < 0 :=
      (Int.lt_zpow_iff_log_lt (by norm_num) h').mp (by simpa using h)
    have hx2 := Int.lt_zpow_succ_log_self (b := 2) (by norm_num) x
    unfold roundF32
    rw [abs_of_pos h']
    generalize hE : max (Int.log 2 x) (-126) = E
    have hE1 : Int.log 2 x ≤ E := by rw [← hE]; exact le_max_left _ _
    have hE2 : E ≤ -1 := by rw [← hE]; exact max_le (by omega) (by norm_num)
    have hpos : (0 : ℚ) < 2 ^ (E - 23) := zpow_pos (by norm_num) _
    have hxE : x < 2 ^ (E + 1) :=
      lt_of_lt_of_le (by exact_mod_cast hx2)
        (zpow_le_zpow_right₀ (by norm_num) (by omega))
    have hq : x / 2 ^ (E - 23) < ((2 ^ 24 : ℤ) : ℚ) := by
      rw [div_lt_iff₀ hpos]
      rw [top_of_binade E]
      exact hxE
    have hr : ((roundHalfEven (x / 2 ^ (E - 23)) : ℤ) : ℚ) ≤ ((2 ^ 24 : ℤ) : ℚ) := by
      exact_mod_cast roundHalfEven_le _ _ hq
    calc ((roundHalfEven (x / 2 ^ (E - 23)) : ℤ) : ℚ) * 2 ^ (E - 23)
        ≤ ((2 ^ 24 : ℤ) : ℚ) * 2 ^ (E - 23) := mul_le_mul_of_nonneg_right hr hpos.le
      _ = 2 ^ (E + 1) := top_of_binade E
      _ ≤ 2 ^ (0 : ℤ) := zpow_le_zpow_right₀ (by norm_num) (by omega)
      _ = 1 := by norm_num

end Apdex

/-! ## C2, C3: the score -/

namespace Apdex

theorem tally_foldl (values : List apdexAction) (c : Tally) :
    values.foldl calculateApdex.step c =
      { satisfiedCount := c.satisfiedCount
          + values.countP (fun a => a.UserExperience = experience.SATISFIED)
        toleratingCount := c.toleratingCount
          + values.countP (fun a => a.UserExperience = experience.TOLERATING)
        totalCount := c.totalCount + values.length } := by
  induction values generalizing c with
  | nil => simp
  | cons a rest ih =>
    rw [List.foldl_cons, ih]
    unfold calculateApdex.step
    cases h : a.UserExperience <;> simp [h, List.countP_cons] <;> omega

theorem tally_eq (values : List apdexAction) :
    calculateApdex.tally values =
      { satisfiedCount := values.countP (fun a => a.UserExperience = experience.SATISFIED)
        toleratingCount := values.countP (fun a => a.UserExperience = experience.TOLERATING)
        totalCount := values.length } := by
  unfold calculateApdex.tally
  rw [tally_foldl]
  simp

theorem length_eq_counts (values : List apdexAction) :
    values.length =
      values.countP (fun a => a.UserExperience = experience.SATISFIED)
      + values.countP (fun a => a.UserExperience = experience.TOLERATING)
      + values.countP (fun a => a.UserExperience = experience.FRUSTRATED) := by
  induction values with
  | nil => simp
  | cons a rest ih =>
    cases h : a.UserExperience <;> simp [h, List.countP_cons] <;> omega

theorem calculateApdex_eq (r : Ring apdexAction) (h : r.Values ≠ []) :
    calculateApdex r =
      float32.div
        (float32.add
          (float32 (r.Values.countP (fun a => a.UserExperience = experience.SATISFIED) : ℕ))
          (float32.div
            (float32 (r.Values.countP (fun a => a.UserExperience = experience.TOLERATING) : ℕ))
            2))
        (float32 (r.Values.length : ℕ)) := by
  unfold calculateApdex
  simp only [tally_eq]
  rw [if_neg]
  intro h0
  exact h (List.length_eq_zero.mp h0)

theorem calculateApdex_nil (r : Ring apdexAction) (h : r.Values = []) :
    calculateApdex r = 0 := by
  unfold calculateApdex
  simp [tally_eq, h]

/-- With fewer than `2 ^ 23` samples the conversions, the halving and the sum are exact,
so that only the final division rounds. -/
theorem float32_score (s t n : ℕ) (hst : s + t ≤ n) (hn : n < 2 ^ 23) :
    float32.div (float32.add (float32 (s : ℕ)) (float32.div (float32 (t : ℕ)) 2))
        (float32 (n : ℕ))
      = roundF32 (((s : ℚ) + (t : ℚ) / 2) / (n : ℚ)) := by
  unfold float32.div float32.add float32
  simp only [Int.cast_natCast]
  rw [roundF32_natCast s (by omega), roundF32_natCast t (by omega),
    roundF32_natCast n hn, roundF32_half t (by omega)]
  have e : (s : ℚ) + (t : ℚ) / 2 = ((2 * s + t : ℕ) : ℚ) / 2 := by push_cast; ring
  rw [e, roundF32_half (2 * s + t) (by omega)]

theorem roundF32_third : roundF32 (1 / 3) = 11184811 / 33554432 := by
  unfold roundF32
  rw [log_eq_of_bounds (1 / 3) (-2) (by norm_num) (by norm_num), max_eq_left (by norm_num)]
  have hq : (1 / 3 : ℚ) / 2 ^ ((-2 : ℤ) - 23) = 33554432 / 3 := by
    have : ((-2 : ℤ) - 23) = -(25 : ℕ) := by norm_num
    rw [this, zpow_neg, zpow_natCast]
    norm_num
  have hf : ⌊(33554432 / 3 : ℚ)⌋ = 11184810 := by
    rw [Int.floor_eq_iff]
    norm_num
  have hr : roundHalfEven (33554432 / 3) = 11184811 := by
    unfold roundHalfEven
    rw [hf, if_neg (by norm_num), if_pos (by norm_num)]
    norm_num
  rw [hq, hr]
  have : ((-2 : ℤ) - 23) = -(25 : ℕ) := by norm_num
  rw [this, zpow_neg, zpow_natCast]
  norm_num

theorem roundF32_five_eighths : roundF32 (5 / 8) = 5 / 8 := by
  refine roundF32_exact (5 / 8) (-1) 10485760 (by norm_num) (by norm_num) (by norm_num) ?_
  have : ((-1 : ℤ) - 23) = -(24 : ℕ) := by norm_num
  rw [this, zpow_neg, zpow_natCast]
  norm_num

/-- C2 (amended): for a non-empty snapshot holding `s` SATISFIED, `t` TOLERATING and `f`
FRUSTRATED samples, `calculateApdex` returns `(s + t / 2) / (s + t + f)` evaluated in
`float32` arithmetic; with fewer than `2 ^ 23` samples this is the `float32` nearest to
the exact value of `(s + t / 2) / (s + t + f)` and lies in `[0, 1]`; the result is the
same for every permutation of the snapshot, and is exactly `0.625` for 2 SATISFIED,
1 TOLERATING and 1 FRUSTRATED. -/
theorem calculateApdex_formula (r : Ring apdexAction) (s t f : Nat)
    (hne : r.Values ≠ [])
    (hs : r.Values.countP (fun a => a.UserExperience = experience.SATISFIED) = s)
    (ht : r.Values.countP (fun a => a.UserExperience = experience.TOLERATING) = t)
    (hf : r.Values.countP (fun a => a.UserExperience = experience.FRUSTRATED) = f) :
    calculateApdex r =
      float32.div (float32.add (float32 (s : ℕ)) (float32.div (float32 (t : ℕ)) 2))
        (float32 ((s + t + f : ℕ))) ∧
    (s + t + f < 2 ^ 23 →
      calculateApdex r = roundF32 (((s : ℚ) + (t : ℚ) / 2) / ((s : ℚ) + (t : ℚ) + (f : ℚ))) ∧
      0 ≤ calculateApdex r ∧ calculateApdex r ≤ 1) ∧
    (∀ r' : Ring apdexAction, r'.Values.Perm r.Values →
      calculateApdex r' = calculateApdex r) ∧
    (s = 2 → t = 1 → f = 1 → calculateApdex r = 0.625) := by
  have hlen : r.Values.length = s + t + f := by
    rw [length_eq_counts, hs, ht, hf]
  have hpos : 0 < s + t + f := by
    rw [← hlen]; exact List.length_pos.mpr hne
  have hposq : (0 : ℚ) < (s : ℚ) + (t : ℚ) + (f : ℚ) := by exact_mod_cast hpos
  have hval : calculateApdex r =
      float32.div (float32.add (float32 (s : ℕ)) (float32.div (float32 (t : ℕ)) 2))
        (float32 ((s + t + f : ℕ))) := by
    rw [calculateApdex_eq r hne, hs, ht, hlen]
  have hsmall : s + t + f < 2 ^ 23 →
      calculateApdex r
        = roundF32 (((s : ℚ) + (t : ℚ) / 2) / ((s : ℚ) + (t : ℚ) + (f : ℚ))) := by
    intro hb
    rw [hval, float32_score s t (s + t + f) (by omega) hb]
    push_cast
    rfl
  have hs0 : (0 : ℚ) ≤ (s : ℚ) := Nat.cast_nonneg s
  have ht0 : (0 : ℚ) ≤ (t : ℚ) := Nat.cast_nonneg t
  have hf0 : (0 : ℚ) ≤ (f : ℚ) := Nat.cast_nonneg f
  refine ⟨hval, ?_, ?_, ?_⟩
  · intro hb
    have hu := roundF32_unit (((s : ℚ) + (t : ℚ) / 2) / ((s : ℚ) + (t : ℚ) + (f : ℚ)))
      (by apply div_nonneg <;> linarith)
      (by rw [div_le_one hposq]; linarith)
    rw [hsmall hb]
    exact ⟨rfl, hu.1, hu.2⟩
  · intro r' hp
    have hne' : r'.Values ≠ [] := by
      intro h0
      rw [h0] at hp
      exact hne (List.Perm.nil_eq hp).symm
    rw [calculateApdex_eq r' hne', calculateApdex_eq r hne, hp.countP_eq, hp.countP_eq,
      hp.length_eq]
  · intro h2 h1 h1'
    rw [hsmall (by rw [h2, h1, h1']; norm_num), h2, h1, h1']
    have e : (((2 : ℕ) : ℚ) + ((1 : ℕ) : ℚ) / 2) / (((2 : ℕ) : ℚ) + ((1 : ℕ) : ℚ) + ((1 : ℕ) : ℚ))
        = 5 / 8 := by norm_num
    rw [e, roundF32_five_eighths]
    norm_num

/-- Witness of `calculateApdex_formula`: the snapshot SATISFIED, SATISFIED, TOLERATING,
FRUSTRATED scores `0.625`. -/
theorem calculateApdex_formula_witness :
    calculateApdex
      { capacity := 4
        buff := [⟨0, 10, experience.SATISFIED⟩, ⟨1, 20, experience.SATISFIED⟩,
          ⟨2, 2500, experience.TOLERATING⟩, ⟨3, 9000, experience.FRUSTRATED⟩] } = 0.625 :=
  (calculateApdex_formula
      { capacity := 4
        buff := [⟨0, 10, experience.SATISFIED⟩, ⟨1, 20, experience.SATISFIED⟩,
          ⟨2, 2500, experience.TOLERATING⟩, ⟨3, 9000, experience.FRUSTRATED⟩] }
      2 1 1 (by decide) (by decide) (by decide) (by decide)).2.2.2 rfl rfl rfl

/-- C2 (as stated) fails: for the snapshot SATISFIED, FRUSTRATED, FRUSTRATED the exact
value of `(s + t / 2) / (s + t + f)` is `1 / 3`, which is no `float32`; `calculateApdex`
returns `11184811 / 33554432` (bit pattern `0x3eaaaaab`). -/
theorem calculateApdex_formula_counterexample :
    calculateApdex
      { capacity := 3
        buff := [⟨0, 10, experience.SATISFIED⟩, ⟨1, 9000, experience.FRUSTRATED⟩,
          ⟨2, 9500, experience.FRUSTRATED⟩] } = 11184811 / 33554432 ∧
    calculateApdex
      { capacity := 3
        buff := [⟨0, 10, experience.SATISFIED⟩, ⟨1, 9000, experience.FRUSTRATED⟩,
          ⟨2, 9500, experience.FRUSTRATED⟩] }
      ≠ ((1 : ℚ) + (0 : ℚ) / 2) / ((1 : ℚ) + (0 : ℚ) + (2 : ℚ)) := by
  have h : calculateApdex
      { capacity := 3
        buff := [⟨0, 10, experience.SATISFIED⟩, ⟨1, 9000, experience.FRUSTRATED⟩,
          ⟨2, 9500, experience.FRUSTRATED⟩] } = 11184811 / 33554432 := by
    rw [calculateApdex_eq _ (by simp [Ring.Values])]
    have hs : List.countP (fun a => decide (a.UserExperience = experience.SATISFIED))
        (Ring.Values
          { capacity := 3
            buff := [(⟨0, 10, experience.SATISFIED⟩ : apdexAction),
              ⟨1, 9000, experience.FRUSTRATED⟩, ⟨2, 9500, experience.FRUSTRATED⟩] })
        = 1 := by decide
    have ht : List.countP (fun a => decide (a.UserExperience = experience.TOLERATING))
        (Ring.Values
          { capacity := 3
            buff := [(⟨0, 10, experience.SATISFIED⟩ : apdexAction),
              ⟨1, 9000, experience.FRUSTRATED⟩, ⟨2, 9500, experience.FRUSTRATED⟩] })
        = 0 := by decide
    have hl : List.length
        (Ring.Values
          { capacity := 3
            buff := [(⟨0, 10, experience.SATISFIED⟩ : apdexAction),
              ⟨1, 9000, experience.FRUSTRATED⟩, ⟨2, 9500, experience.FRUSTRATED⟩] })
        = 3 := by decide
    rw [hs, ht, hl, float32_score 1 0 3 (by norm_num) (by norm_num)]
    have e : (((1 : ℕ) : ℚ) + ((0 : ℕ) : ℚ) / 2) / ((3 : ℕ) : ℚ) = 1 / 3 := by norm_num
    rw [e, roundF32_third]
  refine ⟨h, ?_⟩
  rw [h]
  norm_num

/-- C3 (amended): for the empty window `calculateApdex` returns the number `0`, which
is also what it returns for every snapshot whose samples are all FRUSTRATED; whether
the window is empty is told by `getBufferSize`, and the status page prints a score only
when `getBufferSize` is positive. -/
theorem calculateApdex_empty (s : State) :
    (s.actionsring.Values = [] → calculateApdex s.actionsring = 0) ∧
    ((∀ a ∈ s.actionsring.Values, a.UserExperience = experience.FRUSTRATED) →
      calculateApdex s.actionsring = 0) ∧
    (getBufferSize s.actionsring = 0 ↔ s.actionsring.Values = []) ∧
    (s.actionsring.Values = [] →
      processRequest.get s = [StatusLine.visitCount s.visitCount,
        StatusLine.actionCount s.actionCount, StatusLine.bufferSize 0]) ∧
    (s.actionsring.Values ≠ [] →
      processRequest.get s = [StatusLine.visitCount s.visitCount,
        StatusLine.actionCount s.actionCount,
        StatusLine.bufferSize (getBufferSize s.actionsring),
        StatusLine.apdex (calculateApdex s.actionsring)]) := by
  have hsize : getBufferSize s.actionsring = 0 ↔ s.actionsring.Values = [] := by
    unfold getBufferSize
    exact List.length_eq_zero
  refine ⟨calculateApdex_nil _, ?_, hsize, ?_, ?_⟩
  · intro hall
    by_cases hne : s.actionsring.Values = []
    · exact calculateApdex_nil _ hne
    · rw [calculateApdex_eq _ hne]
      have h1 : s.actionsring.Values.countP
          (fun a => a.UserExperience = experience.SATISFIED) = 0 := by
        rw [List.countP_eq_zero]
        intro a ha
        simp [hall a ha]
      have h2 : s.actionsring.Values.countP
          (fun a => a.UserExperience = experience.TOLERATING) = 0 := by
        rw [List.countP_eq_zero]
        intro a ha
        simp [hall a ha]
      rw [h1, h2]
      unfold float32.div float32.add float32
      simp [roundF32_zero]
  · intro h
    unfold processRequest.get
    simp [hsize.mpr h]
  · intro h
    have : 0 < getBufferSize s.actionsring := by
      rcases Nat.eq_zero_or_pos (getBufferSize s.actionsring) with h0 | h0
      · exact absurd (hsize.mp h0) h
      · exact h0
    unfold processRequest.get
    simp [this]

/-- Witness of `calculateApdex_empty`: a state whose window is empty. -/
theorem calculateApdex_empty_witness :
    calculateApdex (Ring.zero.SetCapacity 3) = 0 :=
  (calculateApdex_empty
    { actionsring := Ring.zero.SetCapacity 3, targetTime := 2, applicationFilter := "",
      visitCount := 0, actionCount := 0 }).1 rfl

/-- C3 (as stated) fails: the result for the empty window equals the result for a
window holding one FRUSTRATED sample. -/
theorem calculateApdex_empty_counterexample :
    calculateApdex { capacity := 3, buff := [] } =
      calculateApdex { capacity := 3, buff := [⟨0, 9000, experience.FRUSTRATED⟩] } := by
  rw [calculateApdex_nil { capacity := 3, buff := [] } rfl,
    calculateApdex_eq _ (by simp [Ring.Values])]
  have hs : List.countP (fun a => decide (a.UserExperience = experience.SATISFIED))
      (Ring.Values
        { capacity := 3
          buff := [(⟨0, 9000, experience.FRUSTRATED⟩ : apdexAction)] }) = 0 := by decide
  have ht : List.countP (fun a => decide (a.UserExperience = experience.TOLERATING))
      (Ring.Values
        { capacity := 3
          buff := [(⟨0, 9000, experience.FRUSTRATED⟩ : apdexAction)] }) = 0 := by decide
  rw [hs, ht]
  unfold float32.div float32.add float32
  simp [roundF32_zero]

end Apdex

/-! ## C4, C5: ingestion and the window -/

namespace Apdex

theorem wrapInt64_succ (n : Int) (h0 : -2 ^ 63 ≤ n) (h1 : n < 2 ^ 63 - 1) :
    wrapInt64 (n + 1) = n + 1 := by
  unfold wrapInt64
  omega

/-- An action stopped by the application filter leaves the state as it is. -/
theorem processUserAction_skip (s : State) (a : UserAction)
    (h : s.applicationFilter.length > 0 ∧ s.applicationFilter ≠ a.Application) :
    processUserAction s a = s := by
  unfold processUserAction
  rw [if_pos h]

theorem processUserAction_pass (s : State) (a : UserAction)
    (h : ¬ (s.applicationFilter.length > 0 ∧ s.applicationFilter ≠ a.Application)) :
    processUserAction s a =
      { s with
        actionCount := wrapInt64 (s.actionCount + 1)
        actionsring := s.actionsring.Enqueue (processUserAction.sample s.targetTime a) } := by
  unfold processUserAction
  rw [if_neg h]

theorem processUserAction_frame (s : State) (a : UserAction) :
    (processUserAction s a).targetTime = s.targetTime ∧
    (processUserAction s a).applicationFilter = s.applicationFilter ∧
    (processUserAction s a).visitCount = s.visitCount ∧
    (processUserAction s a).actionsring.capacity = s.actionsring.capacity := by
  unfold processUserAction Ring.Enqueue
  split_ifs <;> simp

theorem Enqueue_drop {α : Type} (r : Ring α) (x : α) (l : List α)
    (h : r.buff = l.drop (l.length - r.capacity)) :
    (r.Enqueue x).capacity = r.capacity ∧
    (r.Enqueue x).buff = (l ++ [x]).drop ((l ++ [x]).length - r.capacity) := by
  unfold Ring.Enqueue
  have hlen : r.buff.length = l.length - (l.length - r.capacity) := by
    rw [h, List.length_drop]
  split_ifs with h0 h1
  · refine ⟨rfl, ?_⟩
    rw [h, h0]
    simp
  · refine ⟨rfl, ?_⟩
    have hle : r.capacity ≤ l.length := by omega
    show List.drop 1 r.buff ++ [x] = _
    rw [h, List.drop_drop, List.length_append, List.length_singleton,
      List.drop_append_of_le_length (by omega)]
    congr 2
    omega
  · refine ⟨rfl, ?_⟩
    have hlt : l.length < r.capacity := by omega
    show r.buff ++ [x] = _
    rw [h, List.length_append, List.length_singleton]
    have e1 : l.length - r.capacity = 0 := by omega
    have e2 : l.length + 1 - r.capacity = 0 := by omega
    rw [e1, e2]
    rfl

theorem foldl_processUserAction_window (actions : List UserAction) (s : State)
    (l : List apdexAction)
    (h : s.actionsring.buff = l.drop (l.length - s.actionsring.capacity)) :
    (actions.foldl processUserAction s).actionsring.capacity = s.actionsring.capacity ∧
    (actions.foldl processUserAction s).actionsring.buff =
      (l ++ (actions.filter (fun a =>
          ¬ (s.applicationFilter.length > 0 ∧ s.applicationFilter ≠ a.Application))).map
          (processUserAction.sample s.targetTime)).drop
        ((l ++ (actions.filter (fun a =>
          ¬ (s.applicationFilter.length > 0 ∧ s.applicationFilter ≠ a.Application))).map
          (processUserAction.sample s.targetTime)).length - s.actionsring.capacity) := by
  induction actions generalizing s l with
  | nil => simpa using h
  | cons a rest ih =>
    rw [List.foldl_cons]
    obtain ⟨hT, hF, _, hC⟩ := processUserAction_frame s a
    by_cases hp : s.applicationFilter.length > 0 ∧ s.applicationFilter ≠ a.Application
    · have hs : processUserAction s a = s := processUserAction_skip s a hp
      rw [hs]
      have := ih s l h
      rw [List.filter_cons_of_neg (by simp [hp])]
      exact this
    · have hs := processUserAction_pass s a hp
      obtain ⟨hc, hb⟩ := Enqueue_drop s.actionsring (processUserAction.sample s.targetTime a) l h
      have hb' : (processUserAction s a).actionsring.buff
          = (l ++ [processUserAction.sample s.targetTime a]).drop
              ((l ++ [processUserAction.sample s.targetTime a]).length
                - (processUserAction s a).actionsring.capacity) := by
        rw [hC, hs]
        exact hb
      have := ih (processUserAction s a) (l ++ [processUserAction.sample s.targetTime a]) hb'
      rw [hT, hF, hC] at this
      rw [List.filter_cons_of_pos (by simp only [decide_eq_true_eq]; exact hp), List.map_cons]
      simpa using this

end Apdex

namespace Apdex

/-- C4: starting from the window initialised with `SetCapacity N`, after a sequence of
actions went through `processUserAction` the occupancy `getBufferSize` is `min N k`,
where `k` is the number of samples enqueued, and the window holds exactly the
`min N k` most recently enqueued samples in arrival order. With capacity 3 and a
threshold of 1000 ms, response times 500, 1500, 5000, 100 leave 1500 (TOLERATING),
5000 (FRUSTRATED), 100 (SATISFIED) and the score `0.5`. -/
theorem window_most_recent (N : Nat) (s0 : State) (actions : List UserAction)
    (samples : List apdexAction)
    (hinit : s0.actionsring = Ring.zero.SetCapacity N)
    (hsamples : samples =
      (actions.filter (fun a =>
        ¬ (s0.applicationFilter.length > 0 ∧ s0.applicationFilter ≠ a.Application))).map
        (processUserAction.sample s0.targetTime)) :
    getBufferSize (actions.foldl processUserAction s0).actionsring = min N samples.length ∧
    (actions.foldl processUserAction s0).actionsring.Values =
      samples.drop (samples.length - min N samples.length) ∧
    ([(⟨"app", 0, 500⟩ : UserAction), ⟨"app", 0, 1500⟩, ⟨"app", 0, 5000⟩,
        ⟨"app", 0, 100⟩].foldl processUserAction
      { actionsring := Ring.zero.SetCapacity 3, targetTime := 1, applicationFilter := "",
        visitCount := 0, actionCount := 0 }).actionsring.Values
      = [⟨0, 1500, experience.TOLERATING⟩, ⟨0, 5000, experience.FRUSTRATED⟩,
        ⟨0, 100, experience.SATISFIED⟩] ∧
    calculateApdex ([(⟨"app", 0, 500⟩ : UserAction), ⟨"app", 0, 1500⟩, ⟨"app", 0, 5000⟩,
        ⟨"app", 0, 100⟩].foldl processUserAction
      { actionsring := Ring.zero.SetCapacity 3, targetTime := 1, applicationFilter := "",
        visitCount := 0, actionCount := 0 }).actionsring = 0.5 := by
  have hb : s0.actionsring.buff = ([] : List apdexAction).drop
      (([] : List apdexAction).length - s0.actionsring.capacity) := by
    rw [hinit]; rfl
  have hc : s0.actionsring.capacity = N := by rw [hinit]; rfl
  obtain ⟨_, hbuff⟩ := foldl_processUserAction_window actions s0 [] hb
  rw [List.nil_append, ← hsamples, hc] at hbuff
  have hvals : (actions.foldl processUserAction s0).actionsring.Values
      = samples.drop (samples.length - N) := hbuff
  have hmin : samples.length - min N samples.length = samples.length - N := by omega
  have hv : ([(⟨"app", 0, 500⟩ : UserAction), ⟨"app", 0, 1500⟩, ⟨"app", 0, 5000⟩,
        ⟨"app", 0, 100⟩].foldl processUserAction
      { actionsring := Ring.zero.SetCapacity 3, targetTime := 1, applicationFilter := "",
        visitCount := 0, actionCount := 0 }).actionsring.Values
      = [⟨0, 1500, experience.TOLERATING⟩, ⟨0, 5000, experience.FRUSTRATED⟩,
        ⟨0, 100, experience.SATISFIED⟩] := by decide
  refine ⟨?_, ?_, hv, ?_⟩
  · unfold getBufferSize
    rw [hvals, List.length_drop]
    omega
  · rw [hvals, hmin]
  · rw [calculateApdex_eq _ (by rw [hv]; simp), hv]
    have hs : List.countP (fun a => decide (a.UserExperience = experience.SATISFIED))
        [(⟨0, 1500, experience.TOLERATING⟩ : apdexAction), ⟨0, 5000, experience.FRUSTRATED⟩,
          ⟨0, 100, experience.SATISFIED⟩] = 1 := by decide
    have ht : List.countP (fun a => decide (a.UserExperience = experience.TOLERATING))
        [(⟨0, 1500, experience.TOLERATING⟩ : apdexAction), ⟨0, 5000, experience.FRUSTRATED⟩,
          ⟨0, 100, experience.SATISFIED⟩] = 1 := by decide
    have hl : List.length
        [(⟨0, 1500, experience.TOLERATING⟩ : apdexAction), ⟨0, 5000, experience.FRUSTRATED⟩,
          ⟨0, 100, experience.SATISFIED⟩] = 3 := by decide
    rw [hs, ht, hl, float32_score 1 1 3 (by norm_num) (by norm_num)]
    have e : (((1 : ℕ) : ℚ) + ((1 : ℕ) : ℚ) / 2) / ((3 : ℕ) : ℚ) = ((1 : ℕ) : ℚ) / 2 := by
      norm_num
    rw [e, roundF32_half 1 (by norm_num)]
    norm_num

/-- Witness of `window_most_recent`: capacity 2 and three actions, no filter. -/
theorem window_most_recent_witness :
    getBufferSize ([(⟨"app", 0, 500⟩ : UserAction), ⟨"app", 0, 1500⟩,
        ⟨"app", 0, 5000⟩].foldl processUserAction
      { actionsring := Ring.zero.SetCapacity 2, targetTime := 1, applicationFilter := "",
        visitCount := 0, actionCount := 0 }).actionsring = min 2 3 :=
  (window_most_recent 2
    { actionsring := Ring.zero.SetCapacity 2, targetTime := 1, applicationFilter := "",
      visitCount := 0, actionCount := 0 }
    [⟨"app", 0, 500⟩, ⟨"app", 0, 1500⟩, ⟨"app", 0, 5000⟩]
    [⟨0, 500, experience.SATISFIED⟩, ⟨0, 1500, experience.TOLERATING⟩,
      ⟨0, 5000, experience.FRUSTRATED⟩]
    rfl (by decide)).1

end Apdex

namespace Apdex

theorem foldl_processUserAction_skip (actions : List UserAction) (s : State)
    (hset : s.applicationFilter.length > 0)
    (hall : ∀ x ∈ actions, s.applicationFilter ≠ x.Application) :
    actions.foldl processUserAction s = s := by
  induction actions with
  | nil => rfl
  | cons a rest ih =>
    rw [List.foldl_cons, processUserAction_skip s a ⟨hset, hall a (List.mem_cons_self a rest)⟩]
    exact ih (fun x hx => hall x (List.mem_cons_of_mem a hx))

/-- C5: a visit processed while a non-empty application filter is set that equals none
of its interactions' application names leaves the action counter and the window as
they were and increases the visit counter by exactly one; an interaction whose
application differs from a set filter changes nothing; every other interaction
increases the action counter by one and enqueues exactly one sample, whose
`ResponseTime` is `EndTime - StartTime`. The increments and the subtraction are those
of Go's `int` and `uint64`; they are the mathematical ones whenever the result is
representable. -/
theorem filter_frame (s : State) (v : Visit) (a : UserAction) :
    (s.applicationFilter.length > 0 →
      (∀ x ∈ v.UserActions, s.applicationFilter ≠ x.Application) →
      processRequest.visit s v = { s with visitCount := wrapInt64 (s.visitCount + 1) }) ∧
    (s.applicationFilter.length > 0 ∧ s.applicationFilter ≠ a.Application →
      processUserAction s a = s) ∧
    (¬ (s.applicationFilter.length > 0 ∧ s.applicationFilter ≠ a.Application) →
      processUserAction s a =
        { s with
          actionCount := wrapInt64 (s.actionCount + 1)
          actionsring := s.actionsring.Enqueue
            { StartTime := a.StartTime
              ResponseTime := subUint64 a.EndTime a.StartTime
              UserExperience := (processUserAction.sample s.targetTime a).UserExperience } }) ∧
    (-2 ^ 63 ≤ s.visitCount → s.visitCount < 2 ^ 63 - 1 →
      wrapInt64 (s.visitCount + 1) = s.visitCount + 1) ∧
    (-2 ^ 63 ≤ s.actionCount → s.actionCount < 2 ^ 63 - 1 →
      wrapInt64 (s.actionCount + 1) = s.actionCount + 1) ∧
    (a.StartTime ≤ a.EndTime → a.EndTime < 2 ^ 64 →
      subUint64 a.EndTime a.StartTime = a.EndTime - a.StartTime) := by
  refine ⟨?_, processUserAction_skip s a, ?_, wrapInt64_succ _, wrapInt64_succ _,
    subUint64_of_le _ _⟩
  · intro hset hall
    unfold processRequest.visit
    exact foldl_processUserAction_skip v.UserActions
      { s with visitCount := wrapInt64 (s.visitCount + 1) } hset hall
  · intro hp
    rw [processUserAction_pass s a hp]
    have e : processUserAction.sample s.targetTime a =
        { StartTime := a.StartTime
          ResponseTime := subUint64 a.EndTime a.StartTime
          UserExperience := (processUserAction.sample s.targetTime a).UserExperience } := by
      have h1 := sample_StartTime s.targetTime a
      have h2 := sample_ResponseTime s.targetTime a
      cases hs : processUserAction.sample s.targetTime a with
      | mk st rt ue =>
        rw [hs] at h1 h2
        simp only at h1 h2
        rw [h1, h2]
    rw [← e]

/-- Witness of `filter_frame`: with the filter `"shop"`, a visit of two `"blog"`
interactions only moves the visit counter, from 7 to 8. -/
theorem filter_frame_witness :
    processRequest.visit
      { actionsring := Ring.zero.SetCapacity 3, targetTime := 2, applicationFilter := "shop",
        visitCount := 7, actionCount := 4 }
      { UserActions := [⟨"blog", 10, 500⟩, ⟨"blog", 20, 9000⟩] }
    = { actionsring := Ring.zero.SetCapacity 3, targetTime := 2, applicationFilter := "shop",
        visitCount := 8, actionCount := 4 } :=
  ((filter_frame
      { actionsring := Ring.zero.SetCapacity 3, targetTime := 2, applicationFilter := "shop",
        visitCount := 7, actionCount := 4 }
      { UserActions := [⟨"blog", 10, 500⟩, ⟨"blog", 20, 9000⟩] }
      ⟨"shop", 0, 1⟩).1 (by decide) (by decide)).trans (by decide)

end Apdex

/-! ## C6: the export tick; C8: start-up registration -/

namespace Apdex

theorem postData_iteration_reports (dp : Dynatrace.DataPoint) (tk : Tick) :
    ∃ rest, (postData.iteration dp tk).2 =
      PostEvent.ReportDataPoint
        { dp with Timestamp := wrapInt64 (tk.now * 1000), Value := calculateApdex tk.actionsring }
        :: rest := by
  unfold postData.iteration
  cases tk.report <;> exact ⟨_, rfl⟩

/-- C6 fails on the code: on a tick at which the window is empty `postData` calls
`ReportDataPoint`, with the value `0`, while the status page of `processRequest`
prints no score for the same window. -/
theorem postData_empty_window_reports :
    postData [{ now := 1700000000, actionsring := Ring.zero.SetCapacity 1000,
                report := Except.ok "ok" }]
      = [PostEvent.ReportDataPoint
          { CustomDeviceID := "MobileApdexCalculator", IPAddress := "10.0.0.10",
            DeviceDisplayName := "Mobile Apdex Calculator",
            MetricDisplayName := "Mobile Apdex", DeviceType := "MobileDevice",
            MetricName := "apdex", Timestamp := 1700000000000, Value := 0 },
         PostEvent.logBody "ok", PostEvent.logSuccess 0] ∧
    processRequest.get
        { actionsring := Ring.zero.SetCapacity 1000, targetTime := 2,
          applicationFilter := "", visitCount := 0, actionCount := 0 }
      = [StatusLine.visitCount 0, StatusLine.actionCount 0, StatusLine.bufferSize 0] := by
  constructor
  · have h : calculateApdex (Ring.zero.SetCapacity 1000) = 0 :=
      calculateApdex_nil _ rfl
    simp only [postData, postData.loop, postData.iteration, h, List.append_nil]
    have hw : wrapInt64 (1700000000 * 1000) = 1700000000000 := by decide
    rw [hw]
    rfl
  · rfl

end Apdex

namespace Apdex

theorem main_serve_no_register (flags : Flags) (listen : Option String)
    (n d u t : String) :
    MainEvent.RegisterCustomMetric n d u t ∉ main.serve flags listen := by
  unfold main.serve
  cases listen <;> simp

/-- C8: with both mandatory flags given, `main` performs no `RegisterCustomMetric` call
when the existence check succeeds and reports the metric present, exactly one when it
reports the metric absent, and when the existence check or the registration returns an
error the process ends in `log.Fatal` without starting `postData` or the listener. -/
theorem main_registration (flags : Flags) (catalog : Except String Dynatrace.Response)
    (send : Dynatrace.Request → Except String (Except String String))
    (listen : Option String)
    (hurl : flags.serverURL.length ≠ 0) (htoken : flags.apiToken.length ≠ 0) :
    (Dynatrace.CustomMetricExists catalog metricName = Except.ok true →
      main flags catalog send listen =
        [MainEvent.SetCapacity flags.ringBufferSize,
          MainEvent.NewAPI flags.serverURL flags.apiToken,
          MainEvent.CustomMetricExists metricName] ++ main.serve flags listen ∧
      ∀ n d u t, MainEvent.RegisterCustomMetric n d u t ∉ main flags catalog send listen) ∧
    (Dynatrace.CustomMetricExists catalog metricName = Except.ok false →
      Dynatrace.RegisterCustomMetric send metricName metricDisplayName "Ratio" metricType
        = Except.ok () →
      main flags catalog send listen =
        [MainEvent.SetCapacity flags.ringBufferSize,
          MainEvent.NewAPI flags.serverURL flags.apiToken,
          MainEvent.CustomMetricExists metricName,
          MainEvent.RegisterCustomMetric metricName metricDisplayName "Ratio" metricType]
          ++ main.serve flags listen ∧
      (main flags catalog send listen).countP
        (fun e => match e with
          | MainEvent.RegisterCustomMetric _ _ _ _ => true
          | _ => false) = 1) ∧
    (∀ err, Dynatrace.CustomMetricExists catalog metricName = Except.ok false →
      Dynatrace.RegisterCustomMetric send metricName metricDisplayName "Ratio" metricType
        = Except.error err →
      main flags catalog send listen =
        [MainEvent.SetCapacity flags.ringBufferSize,
          MainEvent.NewAPI flags.serverURL flags.apiToken,
          MainEvent.CustomMetricExists metricName,
          MainEvent.RegisterCustomMetric metricName metricDisplayName "Ratio" metricType,
          MainEvent.Fatal ("Could not create custom metric " ++ err)]) ∧
    (∀ err, Dynatrace.CustomMetricExists catalog metricName = Except.error err →
      main flags catalog send listen =
        [MainEvent.SetCapacity flags.ringBufferSize,
          MainEvent.NewAPI flags.serverURL flags.apiToken,
          MainEvent.CustomMetricExists metricName,
          MainEvent.Fatal err]) := by
  refine ⟨?_, ?_, ?_, ?_⟩
  · intro h
    have hm : main flags catalog send listen =
        [MainEvent.SetCapacity flags.ringBufferSize,
          MainEvent.NewAPI flags.serverURL flags.apiToken,
          MainEvent.CustomMetricExists metricName] ++ main.serve flags listen := by
      unfold main
      rw [if_neg hurl, if_neg htoken, h]
      rfl
    refine ⟨hm, ?_⟩
    intro n d u t hmem
    rw [hm] at hmem
    rcases List.mem_append.mp hmem with h1 | h1
    · simp at h1
    · exact main_serve_no_register flags listen n d u t h1
  · intro h hreg
    have hm : main flags catalog send listen =
        [MainEvent.SetCapacity flags.ringBufferSize,
          MainEvent.NewAPI flags.serverURL flags.apiToken,
          MainEvent.CustomMetricExists metricName,
          MainEvent.RegisterCustomMetric metricName metricDisplayName "Ratio" metricType]
          ++ main.serve flags listen := by
      unfold main
      rw [if_neg hurl, if_neg htoken, h]
      simp only [Bool.not_false, if_true]
      rw [hreg]
      rfl
    refine ⟨hm, ?_⟩
    rw [hm]
    unfold main.serve
    cases listen <;> rfl
  · intro err h hreg
    unfold main
    rw [if_neg hurl, if_neg htoken, h]
    simp only [Bool.not_false, if_true]
    rw [hreg]
    rfl
  · intro err h
    unfold main
    rw [if_neg hurl, if_neg htoken, h]
    rfl

end Apdex

namespace Apdex

/-- Witness of `main_registration`: the catalog already lists `custom:apdex`, so `main`
goes from the existence check straight to `postData` and the listener. -/
theorem main_registration_witness :
    main
      { port := 8080, targetTime := 2, ringBufferSize := 1000, applicationFilter := "",
        serverURL := "https://backend", apiToken := "token" }
      (Except.ok
        { StatusCode := 200
          tokens := (Dynatrace.JSON.array [Dynatrace.JSON.object
            [("timeseriesId", Dynatrace.JSON.string "custom:apdex"),
             ("displayName", Dynatrace.JSON.string "Mobile Apdex")]]).tokens
          decodeError := none })
      (fun _ => Except.ok (Except.ok ""))
      none
    = [MainEvent.SetCapacity 1000, MainEvent.NewAPI "https://backend" "token",
        MainEvent.CustomMetricExists "apdex", MainEvent.goPostData,
        MainEvent.HandleFunc "/", MainEvent.ListenAndServe 8080] :=
  ((main_registration
      { port := 8080, targetTime := 2, ringBufferSize := 1000, applicationFilter := "",
        serverURL := "https://backend", apiToken := "token" }
      (Except.ok
        { StatusCode := 200
          tokens := (Dynatrace.JSON.array [Dynatrace.JSON.object
            [("timeseriesId", Dynatrace.JSON.string "custom:apdex"),
             ("displayName", Dynatrace.JSON.string "Mobile Apdex")]]).tokens
          decodeError := none })
      (fun _ => Except.ok (Except.ok ""))
      none (by decide) (by decide)).1 rfl).1

end Apdex

/-! ## C7: the catalog of custom metrics -/

namespace Dynatrace

theorem loop_cons (state : Nat) (metrics : List String) (t : Token) (rest : List Token)
    (err : Option String) :
    GetCustomMetrics.loop state metrics (t :: rest) err =
      GetCustomMetrics.loop (GetCustomMetrics.step state metrics t).1
        (GetCustomMetrics.step state metrics t).2 rest err := by
  cases err <;> rfl

theorem step_zero_nondelim (metrics : List String) (t : Token)
    (h : ∀ c, t ≠ Token.delim c) : GetCustomMetrics.step 0 metrics t = (0, metrics) := by
  cases t with
  | delim c => exact absurd rfl (h c)
  | bool b => rfl
  | number n => rfl
  | string s => rfl
  | null => rfl

theorem step_zero_open (metrics : List String) :
    GetCustomMetrics.step 0 metrics (Token.delim '\x7b') = (1, metrics) := by
  simp only [GetCustomMetrics.step]
  rw [if_pos (by decide)]

theorem step_zero_close (metrics : List String) :
    GetCustomMetrics.step 0 metrics (Token.delim '\x7d') = (0, metrics) := by
  simp only [GetCustomMetrics.step]
  rw [if_neg (by decide)]

theorem step_zero_lbracket (metrics : List String) :
    GetCustomMetrics.step 0 metrics (Token.delim '[') = (0, metrics) := by
  simp only [GetCustomMetrics.step]
  rw [if_neg (by decide)]

theorem step_zero_rbracket (metrics : List String) :
    GetCustomMetrics.step 0 metrics (Token.delim ']') = (0, metrics) := by
  simp only [GetCustomMetrics.step]
  rw [if_neg (by decide)]

theorem step_one_key (metrics : List String) (k : String) (h : k ≠ "timeseriesId") :
    GetCustomMetrics.step 1 metrics (Token.string k) = (0, metrics) := by
  simp [GetCustomMetrics.step, h]

theorem step_one_id (metrics : List String) :
    GetCustomMetrics.step 1 metrics (Token.string "timeseriesId") = (2, metrics) := by
  simp [GetCustomMetrics.step]

theorem step_two_string (metrics : List String) (v : String) :
    GetCustomMetrics.step 2 metrics (Token.string v) = (0, metrics ++ [v]) := rfl

mutual
theorem loop_quiet :
    (j : JSON) → j.quiet = true → ∀ (metrics : List String) (rest : List Token)
      (err : Option String),
      GetCustomMetrics.loop 0 metrics (j.tokens ++ rest) err
        = GetCustomMetrics.loop 0 metrics rest err
  | .null, _, metrics, rest, err => by
    simp only [JSON.tokens, List.singleton_append, loop_cons]
    rfl
  | .bool _, _, metrics, rest, err => by
    simp only [JSON.tokens, List.singleton_append, loop_cons]
    rfl
  | .number _, _, metrics, rest, err => by
    simp only [JSON.tokens, List.singleton_append, loop_cons]
    rfl
  | .string _, _, metrics, rest, err => by
    simp only [JSON.tokens, List.singleton_append, loop_cons]
    rfl
  | .array elems, h, metrics, rest, err => by
    have he : JSON.quietElems elems = true := by simpa [JSON.quiet] using h
    simp only [JSON.tokens, List.cons_append, List.append_assoc, loop_cons,
      step_zero_lbracket]
    rw [loop_quietElems elems he]
    simp only [List.singleton_append, List.nil_append, List.cons_append, loop_cons, step_zero_rbracket]
  | .object [], _, metrics, rest, err => by
    simp only [JSON.tokens, JSON.tokensFields, List.nil_append, List.cons_append, loop_cons,
      step_zero_open]
    rfl
  | .object ((k, v) :: fs), h, metrics, rest, err => by
    have h' : k ≠ "timeseriesId" ∧ v.quiet = true ∧ JSON.quietFields fs = true := by
      simpa [JSON.quiet, and_assoc] using h
    simp only [JSON.tokens, JSON.tokensFields, List.cons_append, List.append_assoc, loop_cons,
      step_zero_open, step_one_key _ _ h'.1]
    rw [loop_quiet v h'.2.1, loop_quietFields fs h'.2.2]
    simp only [List.singleton_append, List.nil_append, List.cons_append, loop_cons, step_zero_close]
theorem loop_quietElems :
    (elems : List JSON) → JSON.quietElems elems = true → ∀ (metrics : List String)
      (rest : List Token) (err : Option String),
      GetCustomMetrics.loop 0 metrics (JSON.tokensElems elems ++ rest) err
        = GetCustomMetrics.loop 0 metrics rest err
  | [], _, metrics, rest, err => by
    simp only [JSON.tokensElems, List.nil_append]
  | x :: xs, h, metrics, rest, err => by
    have h' : x.quiet = true ∧ JSON.quietElems xs = true := by
      simpa [JSON.quietElems] using h
    simp only [JSON.tokensElems, List.append_assoc]
    rw [loop_quiet x h'.1, loop_quietElems xs h'.2]
theorem loop_quietFields :
    (fs : List (String × JSON)) → JSON.quietFields fs = true → ∀ (metrics : List String)
      (rest : List Token) (err : Option String),
      GetCustomMetrics.loop 0 metrics (JSON.tokensFields fs ++ rest) err
        = GetCustomMetrics.loop 0 metrics rest err
  | [], _, metrics, rest, err => by
    simp only [JSON.tokensFields, List.nil_append]
  | (k, v) :: fs, h, metrics, rest, err => by
    have h' : v.quiet = true ∧ JSON.quietFields fs = true := by
      simpa [JSON.quietFields] using h
    simp only [JSON.tokensFields, List.cons_append, List.append_assoc, loop_cons]
    rw [step_zero_nondelim _ _ (by intro c hc; cases hc)]
    rw [loop_quiet v h'.1, loop_quietFields fs h'.2]
end

end Dynatrace

namespace Dynatrace

theorem tokens_metricRecord (id : String) (others : List (String × JSON)) :
    (metricRecord id others).tokens =
      Token.delim '\x7b' :: Token.string "timeseriesId" :: Token.string id ::
        (JSON.tokensFields others ++ [Token.delim '\x7d']) := by
  simp [metricRecord, JSON.tokens, JSON.tokensFields]

theorem loop_records (records : List (String × List (String × JSON)))
    (hq : ∀ r ∈ records, JSON.quietFields r.2 = true)
    (metrics : List String) (rest : List Token) (err : Option String) :
    GetCustomMetrics.loop 0 metrics
        (JSON.tokensElems (records.map (fun r => metricRecord r.1 r.2)) ++ rest) err
      = GetCustomMetrics.loop 0 (metrics ++ records.map Prod.fst) rest err := by
  induction records generalizing metrics with
  | nil => simp [JSON.tokensElems]
  | cons r rs ih =>
    have h1 : JSON.quietFields r.2 = true := hq r (List.mem_cons_self r rs)
    have h2 : ∀ x ∈ rs, JSON.quietFields x.2 = true :=
      fun x hx => hq x (List.mem_cons_of_mem r hx)
    simp only [List.map_cons, JSON.tokensElems, tokens_metricRecord,
      List.cons_append, List.append_assoc, List.singleton_append, List.nil_append, loop_cons,
      step_zero_open, step_one_id, step_two_string]
    rw [loop_quietFields r.2 h1]
    simp only [List.cons_append, List.nil_append, loop_cons, step_zero_close]
    rw [ih h2]
    simp

theorem CustomMetricExists_loop_iff (m : String) (metrics : List String) :
    CustomMetricExists.loop m metrics = true ↔ m ∈ metrics := by
  induction metrics with
  | nil => simp [CustomMetricExists.loop]
  | cons v rest ih =>
    unfold CustomMetricExists.loop
    by_cases h : v = m
    · simp [h]
    · rw [if_neg h, ih]
      constructor
      · intro hm; exact List.mem_cons_of_mem v hm
      · intro hm
        rcases List.mem_cons.mp hm with h1 | h1
        · exact absurd h1.symm h
        · exact h1

/-- Where the scan does agree with its documentation: on a catalog whose records all
start with a string-valued `timeseriesId` field, and in whose other fields no nested
object starts with a `timeseriesId` key, `GetCustomMetrics` lists every record once and
`CustomMetricExists` is a membership test. -/
theorem scan_first_field_catalog (resp : Response)
    (records : List (String × List (String × JSON)))
    (hcode : resp.StatusCode = 200)
    (hbody : resp.tokens = (JSON.array (records.map (fun r => metricRecord r.1 r.2))).tokens)
    (heof : resp.decodeError = none)
    (hq : ∀ r ∈ records, JSON.quietFields r.2 = true) :
    GetCustomMetrics (Except.ok resp) = Except.ok (records.map Prod.fst) ∧
    ∀ m : String, ∃ b : Bool, CustomMetricExists (Except.ok resp) m = Except.ok b ∧
      (b = true ↔ ∃ r ∈ records, r.1 = "custom:" ++ m) := by
  have hget : GetCustomMetrics (Except.ok resp) = Except.ok (records.map Prod.fst) := by
    unfold GetCustomMetrics
    simp only [hcode, ne_eq, not_true_eq_false, if_false, hbody, heof, JSON.tokens,
      loop_cons, step_zero_lbracket]
    rw [loop_records records hq]
    simp only [loop_cons, step_zero_rbracket, List.nil_append]
    rfl
  refine ⟨hget, ?_⟩
  intro m
  refine ⟨CustomMetricExists.loop ("custom:" ++ m) (records.map Prod.fst), ?_, ?_⟩
  · unfold CustomMetricExists
    simp only [hget]
  · rw [CustomMetricExists_loop_iff, List.mem_map]

/-- C7 fails on the code: for the catalog whose one record has `timeseriesId` as its
second field, `GetCustomMetrics`, documented to return "a slice of all custom metrics",
returns the empty slice, and `CustomMetricExists "apdex"` is false although the
record's `timeseriesId` is `custom:apdex`; and a record with a nested object that starts
with a `timeseriesId` field contributes two entries. -/
theorem GetCustomMetrics_misses_record :
    (GetCustomMetrics (Except.ok
      { StatusCode := 200
        tokens := (JSON.array [JSON.object [("displayName", JSON.string "Mobile Apdex"),
          ("timeseriesId", JSON.string "custom:apdex")]]).tokens
        decodeError := none }) = Except.ok [] ∧
    CustomMetricExists (Except.ok
      { StatusCode := 200
        tokens := (JSON.array [JSON.object [("displayName", JSON.string "Mobile Apdex"),
          ("timeseriesId", JSON.string "custom:apdex")]]).tokens
        decodeError := none }) "apdex" = Except.ok false) ∧
    GetCustomMetrics (Except.ok
      { StatusCode := 200
        tokens := (JSON.array [JSON.object [("timeseriesId", JSON.string "custom:apdex"),
          ("detail", JSON.object [("timeseriesId", JSON.string "custom:inner")])]]).tokens
        decodeError := none }) = Except.ok ["custom:apdex", "custom:inner"] :=
  ⟨⟨rfl, rfl⟩, rfl⟩

end Dynatrace

/-! ## C10: the body of the registration request -/

namespace Dynatrace
theorem parseString_cons (c : Char) (rest : List Char) :
    parseString (c :: rest) =
    if c = '"' then some ([], rest)
    else if c = '\\' then
      match rest with
      | [] => none
      | e :: rest1 =>
        if e = 'u' then
          match rest1 with
          | h1 :: h2 :: h3 :: h4 :: rest2 =>
            match decodeEscape4 h1 h2 h3 h4 with
            | some ch => (parseString rest2).map (fun p => (ch :: p.1, p.2))
            | none => none
          | _ => none
        else
          match unescape e with
          | some ch => (parseString rest1).map (fun p => (ch :: p.1, p.2))
          | none => none
    else if c.toNat < 0x20 then none
    else (parseString rest).map (fun p => (c :: p.1, p.2)) := by
  conv_lhs => unfold parseString

theorem parseString_plain (c : Char) (rest : List Char) (h1 : c ≠ '"') (h2 : c ≠ '\\') :
    parseString (c :: rest) =
      if c.toNat < 0x20 then none else (parseString rest).map (fun p => (c :: p.1, p.2)) := by
  rw [parseString_cons, if_neg h1, if_neg h2]

theorem parseString_u (a b c d : Char) (rest : List Char) :
    parseString ('\\' :: 'u' :: a :: b :: c :: d :: rest) =
      match decodeEscape4 a b c d with
      | some ch => (parseString rest).map (fun p => (ch :: p.1, p.2))
      | none => none := by
  rw [parseString_cons, if_neg (by decide), if_pos rfl]
  simp only [if_true]

theorem parseString_quote (rest : List Char) : parseString ('"' :: rest) = some ([], rest) := by
  rw [parseString_cons, if_pos rfl]

theorem parseString_escape_char (c : Char) (rest : List Char)
    (h : c ≠ '"' ∧ c ≠ '\\' ∧ 0x20 ≤ c.toNat) :
    parseString (HTMLEscape.char c ++ rest) =
      (parseString rest).map (fun p => (c :: p.1, p.2)) := by
  unfold HTMLEscape.char
  split_ifs with h1 h2
  · rcases h1 with h1 | h1 | h1 <;> subst h1
    · have e : decodeEscape4 '0' '0' (hex ('<'.toNat / 16)) (hex ('<'.toNat % 16))
          = some '<' := by decide
      simp only [List.cons_append, List.nil_append, parseString_u, e]
    · have e : decodeEscape4 '0' '0' (hex ('>'.toNat / 16)) (hex ('>'.toNat % 16))
          = some '>' := by decide
      simp only [List.cons_append, List.nil_append, parseString_u, e]
    · have e : decodeEscape4 '0' '0' (hex ('&'.toNat / 16)) (hex ('&'.toNat % 16))
          = some '&' := by decide
      simp only [List.cons_append, List.nil_append, parseString_u, e]
  · rcases h2 with h2 | h2 <;> subst h2
    · have e : decodeEscape4 '2' '0' '2' (hex ((Char.ofNat 0x2028).toNat % 16))
          = some (Char.ofNat 0x2028) := by decide
      simp only [List.cons_append, List.nil_append, parseString_u, e]
    · have e : decodeEscape4 '2' '0' '2' (hex ((Char.ofNat 0x2029).toNat % 16))
          = some (Char.ofNat 0x2029) := by decide
      simp only [List.cons_append, List.nil_append, parseString_u, e]
  · rw [List.singleton_append, parseString_plain c rest h.1 h.2.1, if_neg (by omega)]

theorem parseString_escape (s : List Char) (rest : List Char)
    (h : ∀ c ∈ s, c ≠ '"' ∧ c ≠ '\\' ∧ 0x20 ≤ c.toNat) :
    parseString (HTMLEscape [] s ++ '"' :: rest) = some (s, rest) := by
  unfold HTMLEscape
  rw [List.nil_append]
  induction s with
  | nil => simp [parseString_quote]
  | cons c s ih =>
    rw [List.flatMap_cons, List.append_assoc,
      parseString_escape_char c _ (h c (List.mem_cons_self c s)),
      ih (fun x hx => h x (List.mem_cons_of_mem c hx))]
    rfl

theorem body_eq (displayName unit metricType : String) :
    RegisterCustomMetric.body displayName unit metricType =
      '\x7b' :: '"' :: ("displayName".data ++ '"' :: ':' :: '"' ::
        (HTMLEscape [] displayName.data ++ '"' :: ',' :: '"' :: ("unit".data ++ '"' :: ':' :: '"' ::
          (HTMLEscape [] unit.data ++ '"' :: ',' :: '"' :: ("types".data ++ '"' :: ':' :: '[' ::
            '"' :: (HTMLEscape [] metricType.data ++ ['"', ']', '\x7d'])))))) := by
  simp [RegisterCustomMetric.body, BufWriter.WriteString, BufWriter.Flush, escapeJSONString,
    HTMLEscape]

end Dynatrace

namespace Dynatrace

theorem parseValue_string (fuel : Nat) (rest : List Char) :
    parseValue (fuel + 1) ('"' :: rest) =
      (parseString rest).map (fun p => (JSON.string (String.mk p.1), p.2)) := by
  simp [parseValue, skipWs]

theorem parseValue_object (fuel : Nat) (rest : List Char) :
    parseValue (fuel + 1) ('\x7b' :: '"' :: rest) =
      (parseMembers fuel ('"' :: rest)).map (fun p => (JSON.object p.1, p.2)) := by
  simp [parseValue, skipWs]

theorem parseValue_array (fuel : Nat) (rest : List Char) :
    parseValue (fuel + 1) ('[' :: '"' :: rest) =
      (parseElems fuel ('"' :: rest)).map (fun p => (JSON.array p.1, p.2)) := by
  simp [parseValue, skipWs]

theorem parseElems_last (fuel : Nat) (cs rest : List Char) (v : JSON)
    (h : parseValue fuel cs = some (v, ']' :: rest)) :
    parseElems (fuel + 1) cs = some ([v], rest) := by
  simp [parseElems, h, skipWs]

theorem parseMembers_more (fuel : Nat) (ks vs more : List Char) (k : List Char) (v : JSON)
    (hk : parseString ks = some (k, ':' :: vs))
    (hv : parseValue fuel vs = some (v, ',' :: more)) :
    parseMembers (fuel + 1) ('"' :: ks) =
      (parseMembers fuel more).map (fun p => ((String.mk k, v) :: p.1, p.2)) := by
  simp [parseMembers, hk, hv, skipWs]

theorem parseMembers_last (fuel : Nat) (ks vs rest : List Char) (k : List Char) (v : JSON)
    (hk : parseString ks = some (k, ':' :: vs))
    (hv : parseValue fuel vs = some (v, '\x7d' :: rest)) :
    parseMembers (fuel + 1) ('"' :: ks) = some ([(String.mk k, v)], rest) := by
  simp [parseMembers, hk, hv, skipWs]

theorem parseString_key (key : List Char) (rest : List Char)
    (h : ∀ c ∈ key, c ≠ '"' ∧ c ≠ '\\' ∧ 0x20 ≤ c.toNat)
    (hplain : HTMLEscape [] key = key) :
    parseString (key ++ '"' :: rest) = some (key, rest) := by
  have := parseString_escape key rest h
  rwa [hplain] at this

end Dynatrace

namespace Dynatrace

theorem parseValue_escaped (fuel : Nat) (s : String) (rest : List Char)
    (h : ∀ c ∈ s.data, c ≠ '"' ∧ c ≠ '\\' ∧ 0x20 ≤ c.toNat) :
    parseValue (fuel + 1) ('"' :: (HTMLEscape [] s.data ++ '"' :: rest))
      = some (JSON.string s, rest) := by
  rw [parseValue_string, parseString_escape s.data rest h]
  rfl

/-- C10: for strings `displayName`, `unit` and `metricType` without a double quote, a
backslash or a control character below U+0020, the request body that
`RegisterCustomMetric` builds with `escapeJSONString` decodes, as JSON, to the object
with exactly the fields `displayName`, `unit` and `types`, holding `displayName`,
`unit` and the one-element list of `metricType` unchanged; the characters `<`, `>`,
`&`, U+2028 and U+2029 are allowed in them. -/
theorem RegisterCustomMetric_body_decodes (displayName unit metricType : String)
    (hd : ∀ c ∈ displayName.data, c ≠ '"' ∧ c ≠ '\\' ∧ 0x20 ≤ c.toNat)
    (hu : ∀ c ∈ unit.data, c ≠ '"' ∧ c ≠ '\\' ∧ 0x20 ≤ c.toNat)
    (ht : ∀ c ∈ metricType.data, c ≠ '"' ∧ c ≠ '\\' ∧ 0x20 ≤ c.toNat) :
    decode (RegisterCustomMetric.body displayName unit metricType) =
      some (JSON.object [("displayName", JSON.string displayName),
        ("unit", JSON.string unit), ("types", JSON.array [JSON.string metricType])]) := by
  have hlen : ∃ n, (RegisterCustomMetric.body displayName unit metricType).length + 1
      = n + 7 := by
    refine ⟨(RegisterCustomMetric.body displayName unit metricType).length - 6, ?_⟩
    have : 6 ≤ (RegisterCustomMetric.body displayName unit metricType).length := by
      rw [body_eq]
      simp only [List.length_cons, List.length_append]
      omega
    omega
  obtain ⟨n, hn⟩ := hlen
  unfold decode
  rw [hn, body_eq, parseValue_object]
  -- third member: `"types":["<metricType>"]`
  have e3 : parseElems (n + 2) ('"' :: (HTMLEscape [] metricType.data ++ ['"', ']', '\x7d']))
      = some ([JSON.string metricType], ['\x7d']) :=
    parseElems_last (n + 1) _ _ _ (parseValue_escaped n metricType _ ht)
  have v3 : parseValue (n + 3)
      ('[' :: '"' :: (HTMLEscape [] metricType.data ++ ['"', ']', '\x7d']))
      = some (JSON.array [JSON.string metricType], ['\x7d']) := by
    rw [parseValue_array, e3]
    rfl
  have m3 : parseMembers (n + 4)
      ('"' :: ("types".data ++ '"' :: ':' :: '[' :: '"' ::
        (HTMLEscape [] metricType.data ++ ['"', ']', '\x7d'])))
      = some ([("types", JSON.array [JSON.string metricType])], []) :=
    parseMembers_last (n + 3) _ _ _ "types".data _
      (parseString_key "types".data _ (by decide) (by decide)) v3
  -- second member: `"unit":"<unit>"`
  have m2 : parseMembers (n + 5)
      ('"' :: ("unit".data ++ '"' :: ':' :: '"' ::
        (HTMLEscape [] unit.data ++ '"' :: ',' :: '"' :: ("types".data ++ '"' :: ':' :: '[' ::
          '"' :: (HTMLEscape [] metricType.data ++ ['"', ']', '\x7d'])))))
      = some ([("unit", JSON.string unit),
          ("types", JSON.array [JSON.string metricType])], []) := by
    rw [parseMembers_more (n + 4) _ _ _ "unit".data _
      (parseString_key "unit".data _ (by decide) (by decide))
      (parseValue_escaped (n + 3) unit _ hu), m3]
    rfl
  -- first member: `"displayName":"<displayName>"`
  rw [parseMembers_more (n + 5) _ _ _ "displayName".data _
    (parseString_key "displayName".data _ (by decide) (by decide))
    (parseValue_escaped (n + 4) displayName _ hd), m2]
  rfl

/-- Witness of `RegisterCustomMetric_body_decodes`: a display name with `<`, `>` and `&`. -/
theorem RegisterCustomMetric_body_decodes_witness :
    decode (RegisterCustomMetric.body "Mobile <Apdex> & more" "Ratio" "MobileDevice") =
      some (JSON.object [("displayName", JSON.string "Mobile <Apdex> & more"),
        ("unit", JSON.string "Ratio"), ("types", JSON.array [JSON.string "MobileDevice"])]) :=
  RegisterCustomMetric_body_decodes "Mobile <Apdex> & more" "Ratio" "MobileDevice"
    (by decide) (by decide) (by decide)

end Dynatrace
